import Mathlib

/-!
Verification development for the txt2sql agent pipeline.

The Python services under `src/application/services` are shallowly embedded
as executable Lean functions over `List Char` / `String`:

* `validate_sql_query`   — SQL safety validation
  (`query_processing_service.py`, `validate_sql_query`);
* `fix_case_sensitivity_issues` — city-name normalisation
  (`_fix_case_sensitivity_issues`);
* `parse_agent_results`  — multi-strategy extraction of structured rows
  from an agent trace (`_parse_agent_results`);
* `execute_sql_query` / `process_query_success_path` — query re-execution
  controller (`process_natural_language_query`, `execute_sql_query`);
* the conversational response service (`conversational_response_service.py`)
  with its prompt-type classifier (`sus_prompt_template_service.py`).

Python strings are modelled as `List Char` (or `String`); `str.upper`,
`str.lower`, `str.title`, `str.islower` are modelled on the ASCII range,
which covers every keyword and marker the services match on.  Regular
expression searches are hand-compiled into deterministic scanners that
implement the leftmost-match / leftmost-nonoverlapping-sub semantics of
`re.search`, `re.findall`, `re.sub` and `re.split` for the concrete
patterns appearing in the source.  Wall-clock timing (`time.time()`) and
the LLM transport are abstracted into parameters; an LLM call outcome is
an `Except` value.
-/

namespace Txt2Sql

/-! ## Python string primitives -/

/-- Python whitespace (`str.strip`, regex `\s`) restricted to ASCII. -/
def isPySpace (c : Char) : Bool :=
  c = ' ' || c = '\t' || c = '\n' || c = '\r' || c = '\x0b' || c = '\x0c'

/-- Regex `\w` (ASCII): letters, digits, underscore. -/
def isWordChar (c : Char) : Bool :=
  c.isAlpha || c.isDigit || c = '_'

/-- Regex `[\w\s]` character class used by the ranked-row pattern. -/
def isWordSpace (c : Char) : Bool :=
  isWordChar c || isPySpace c

/-- `str.upper` on a character list (ASCII). -/
def toUpperL (l : List Char) : List Char :=
  l.map Char.toUpper

/-- `str.lower` on a character list (ASCII). -/
def toLowerL (l : List Char) : List Char :=
  l.map Char.toLower

/-- `str.strip()`: drop whitespace from both ends. -/
def pyStrip (l : List Char) : List Char :=
  ((l.dropWhile isPySpace).reverse.dropWhile isPySpace).reverse

/-- Case-insensitive prefix test (regex `re.IGNORECASE` on ASCII). -/
def ciPrefixOf : List Char → List Char → Bool
  | [], _ => true
  | _ :: _, [] => false
  | a :: as, b :: bs => (a.toUpper = b.toUpper) && ciPrefixOf as bs

/-- Python `needle in hay` substring containment. -/
def containsSub (needle : List Char) : List Char → Bool
  | [] => needle.isEmpty
  | c :: cs => needle.isPrefixOf (c :: cs) || containsSub needle cs

/-- Python `hay.find(needle)`: the suffix that starts right after the first
occurrence of `needle`, if any. -/
def afterFirst (needle : List Char) : List Char → Option (List Char)
  | [] => if needle.isEmpty then some [] else none
  | c :: cs =>
    if needle.isPrefixOf (c :: cs) then some ((c :: cs).drop needle.length)
    else afterFirst needle cs

/-- The suffix of the haystack that starts at the first occurrence of
`needle` (Python `hay[hay.find(needle):]`), if any. -/
def fromFirst (needle : List Char) : List Char → Option (List Char)
  | [] => if needle.isEmpty then some [] else none
  | c :: cs =>
    if needle.isPrefixOf (c :: cs) then some (c :: cs)
    else fromFirst needle cs

/-- Decimal value of a run of ASCII digits (Python `int` on a digit string). -/
def natOfDigits (l : List Char) : Nat :=
  l.foldl (fun a c => a * 10 + (c.toNat - 48)) 0

/-- Leftmost-match search: try the matcher at every suffix, left to right
(the scan of `re.search`). -/
def scanFirst (m : List Char → Option α) : List Char → Option α
  | [] => m []
  | c :: cs =>
    match m (c :: cs) with
    | some a => some a
    | none => scanFirst m cs

/-- All matches of a matcher that also reports the length it consumed,
scanning left to right and resuming after each match
(the scan of `re.findall`).  Matchers used here always consume at least
one character, so fuel `l.length` suffices. -/
def findAllF (m : List Char → Option (α × Nat)) : Nat → List Char → List α
  | 0, _ => []
  | _ + 1, [] => []
  | f + 1, c :: cs =>
    match m (c :: cs) with
    | some (a, k) => a :: findAllF m f ((c :: cs).drop k)
    | none => findAllF m f cs

def findAll (m : List Char → Option (α × Nat)) (l : List Char) : List α :=
  findAllF m l.length l

/-- Maximal runs of ASCII digits: `re.findall(r'\d+', ...)`. -/
def digitRunsF : Nat → List Char → List (List Char)
  | 0, _ => []
  | _ + 1, [] => []
  | f + 1, c :: cs =>
    if c.isDigit then
      ((c :: cs).takeWhile Char.isDigit) :: digitRunsF f ((c :: cs).dropWhile Char.isDigit)
    else digitRunsF f cs

def digitRuns (l : List Char) : List (List Char) :=
  digitRunsF l.length l

/-- `text.split('\n')` (single-character separator, empty pieces kept). -/
def splitNlF : Nat → List Char → List (List Char)
  | 0, l => [l]
  | f + 1, l =>
    match l.drop (l.takeWhile (fun c => c ≠ '\n')).length with
    | [] => [l.takeWhile (fun c => c ≠ '\n')]
    | _ :: rest => l.takeWhile (fun c => c ≠ '\n') :: splitNlF f rest

def splitNl (l : List Char) : List (List Char) :=
  splitNlF l.length l

/-! ## SQL safety validation (`validate_sql_query`) -/

/-- `QueryValidationResult` of `query_processing_service.py`. -/
structure QueryValidationResult where
  is_valid : Bool
  is_safe : Bool
  warnings : List String
  blocked_reasons : List String
  deriving DecidableEq, Repr

/-- The `dangerous_keywords` list of `validate_sql_query`, in source order. -/
def dangerous_keywords : List String :=
  ["DROP", "DELETE", "UPDATE", "INSERT", "ALTER", "CREATE", "TRUNCATE",
   "EXEC", "EXECUTE", "xp_", "sp_", "BULK", "OPENROWSET"]

/-- `re.search(r"/\*.*\*/", ...)`: after `/*`, a run of non-newline
characters, then `* /` (`.` does not match a newline; no DOTALL flag).
`re.search` retries at every later position, so an unclosed `/*` does not
stop the scan from finding a later, closed one. -/
def blockCommentCloses : List Char → Bool
  | [] => false
  | c :: cs =>
    if ['*', '/'].isPrefixOf (c :: cs) then true
    else if c = '\n' then false
    else blockCommentCloses cs

def hasBlockComment : List Char → Bool
  | [] => false
  | c :: cs =>
    if ['/', '*'].isPrefixOf (c :: cs) then blockCommentCloses cs.tail || hasBlockComment cs
    else hasBlockComment cs

/-- `re.search(r";.*KEYWORD", ..., re.IGNORECASE)`: a semicolon, then a run
of non-newline characters, then the keyword (case-insensitive). -/
def ciSeekBeforeNewline (needle : List Char) : List Char → Bool
  | [] => false
  | c :: cs =>
    if ciPrefixOf needle (c :: cs) then true
    else if c = '\n' then false
    else ciSeekBeforeNewline needle cs

def hasSemiThen (needle : List Char) : List Char → Bool
  | [] => false
  | c :: cs =>
    if c = ';' then (ciSeekBeforeNewline needle cs || hasSemiThen needle cs)
    else hasSemiThen needle cs

/-- `validate_sql_query` (`query_processing_service.py`, lines 192-233). -/
def validate_sql_query (sql_query : String) : QueryValidationResult :=
  let sql_upper := toUpperL sql_query.data
  let blocked_reasons :=
    (dangerous_keywords.filter (fun kw => containsSub kw.data sql_upper)).map
      (fun kw => "Palavra-chave perigosa detectada: " ++ kw)
  let warnings :=
    (if containsSub "--".data sql_query.data then
      ["Padrão suspeito detectado: --"] else []) ++
    (if hasBlockComment sql_query.data then
      ["Padrão suspeito detectado: /\\*.*\\*/"] else []) ++
    (if hasSemiThen "DROP".data sql_query.data then
      ["Padrão suspeito detectado: ;.*DROP"] else []) ++
    (if hasSemiThen "DELETE".data sql_query.data then
      ["Padrão suspeito detectado: ;.*DELETE"] else []) ++
    (if !("SELECT".data.isPrefixOf (pyStrip sql_upper)) then
      ["Consulta não é uma operação SELECT"] else [])
  let is_safe := blocked_reasons.isEmpty
  let is_valid := is_safe && warnings.length < 3
  { is_valid := is_valid, is_safe := is_safe,
    warnings := warnings, blocked_reasons := blocked_reasons }

/-! ## Agent-trace parsing (`_parse_agent_results`)

Result rows are Python dictionaries with string keys; values are modelled
by `PyVal`.  Association lists keep the insertion order of Python dicts. -/

inductive PyVal where
  | i (n : Nat)
  | s (v : String)
  | b (v : Bool)
  | strs (v : List String)
  | pairs (v : List (String × String))
  deriving DecidableEq, Repr

abbrev Row := List (String × PyVal)

/-- Strategy 1 matcher: `\[\((\d+),\)\]` at the head of the list. -/
def matchTupleAt (l : List Char) : Option Nat :=
  match l with
  | '[' :: '(' :: rest =>
    let ds := rest.takeWhile Char.isDigit
    if ds.isEmpty then none
    else if [',', ')', ']'].isPrefixOf (rest.drop ds.length) then some (natOfDigits ds)
    else none
  | _ => none

/-- `re.search(r'\[\((\d+),\)\]', response)`. -/
def tupleSearch (l : List Char) : Option Nat :=
  scanFirst matchTupleAt l

/-- Ranked-row matcher `\d+\. ([\w\s]+) - (\d+)` at the head of the list.
The greedy `[\w\s]+` followed by the literal `" - "` backtracks to exactly
one split point: the run of `[\w\s]` characters must end in a space and be
followed by `"- "` and a digit. Returns (name group, count group, length
consumed). -/
def matchComplexAt (l : List Char) : Option ((List Char × List Char) × Nat) :=
  let ds := l.takeWhile Char.isDigit
  if ds.isEmpty then none
  else
    match l.drop ds.length with
    | '.' :: ' ' :: rest =>
      let r := rest.takeWhile isWordSpace
      if r.length < 2 then none
      else if r.getLast? ≠ some ' ' then none
      else
        match rest.drop r.length with
        | '-' :: ' ' :: rest2 =>
          let ds2 := rest2.takeWhile Char.isDigit
          if ds2.isEmpty then none
          else some ((r.take (r.length - 1), ds2),
                     ds.length + 2 + (r.length - 1) + 3 + ds2.length)
        | _ => none
    | _ => none

/-- `re.findall(r'\d+\. ([\w\s]+) - (\d+)', text)`. -/
def complexFindAll (l : List Char) : List (List Char × List Char) :=
  findAll matchComplexAt l

/-- `re.search(r'are ([^.]+)\.', text)`: the text between `"are "` and the
next period. -/
def matchAreAt (l : List Char) : Option (List Char) :=
  if "are ".data.isPrefixOf l then
    let g := (l.drop 4).takeWhile (fun c => c ≠ '.')
    if g.isEmpty then none
    else
      match (l.drop 4).drop g.length with
      | '.' :: _ => some g
      | _ => none
  else none

def citiesSearch (l : List Char) : Option (List Char) :=
  scanFirst matchAreAt l

/-- One delimiter of `re.split(r',\s*(?:and\s+)?', ...)`: a comma, greedy
whitespace, optionally `and` followed by at least one whitespace. -/
def matchCityDelim (l : List Char) : Option Nat :=
  match l with
  | ',' :: rest =>
    let sp := rest.takeWhile isPySpace
    let r2 := rest.drop sp.length
    if "and".data.isPrefixOf r2 then
      let sp2 := (r2.drop 3).takeWhile isPySpace
      if sp2.isEmpty then some (1 + sp.length)
      else some (1 + sp.length + 3 + sp2.length)
    else some (1 + sp.length)
  | _ => none

def splitCityDelimF : Nat → List Char → List Char → List (List Char)
  | 0, acc, l => [acc.reverse ++ l]
  | _ + 1, acc, [] => [acc.reverse]
  | f + 1, acc, c :: cs =>
    match matchCityDelim (c :: cs) with
    | some k => acc.reverse :: splitCityDelimF f [] ((c :: cs).drop k)
    | none => splitCityDelimF f (c :: acc) cs

/-- `re.split(r',\s*(?:and\s+)?', text)`. -/
def splitCityDelim (l : List Char) : List (List Char) :=
  splitCityDelimF l.length [] l

/-- `\([^)]+\)` at the head of the list; returns the length consumed. -/
def parenGroup (l : List Char) : Option Nat :=
  match l with
  | '(' :: rest =>
    let g := rest.takeWhile (fun c => c ≠ ')')
    if g.isEmpty then none
    else
      match rest.drop g.length with
      | ')' :: _ => some (2 + g.length)
      | _ => none
  | _ => none

/-- The `(?:,\s*\([^)]+\))*\]` tail of the bracketed tuple-list pattern:
greedy repetition, then the closing bracket.  Only the maximal repetition
count can be followed by `]`, so the greedy scan is deterministic.
`acc` counts the characters of group 1 consumed so far. -/
def tupleListLoopF : Nat → List Char → Nat → Option Nat
  | _, ']' :: _, acc => some acc
  | 0, _, _ => none
  | f + 1, l, acc =>
    match l with
    | ',' :: rest =>
      let sp := rest.takeWhile isPySpace
      match parenGroup (rest.drop sp.length) with
      | some k => tupleListLoopF f ((rest.drop sp.length).drop k) (acc + 1 + sp.length + k)
      | none => none
    | _ => none

/-- `\[(\([^)]+\)(?:,\s*\([^)]+\))*)\]` at the head; returns group 1. -/
def matchTupleListAt (l : List Char) : Option (List Char) :=
  match l with
  | '[' :: rest =>
    match parenGroup rest with
    | some k =>
      match tupleListLoopF rest.length (rest.drop k) k with
      | some total => some (rest.take total)
      | none => none
    | none => none
  | _ => none

def tupleListSearch (l : List Char) : Option (List Char) :=
  scanFirst matchTupleListAt l

/-- `\('([^']+)',\s*(\d+)\)` at the head of the list. -/
def matchCityCountAt (l : List Char) : Option ((List Char × List Char) × Nat) :=
  match l with
  | '(' :: '\'' :: rest =>
    let name := rest.takeWhile (fun c => c ≠ '\'')
    if name.isEmpty then none
    else
      match rest.drop name.length with
      | '\'' :: ',' :: rest2 =>
        let sp := rest2.takeWhile isPySpace
        let ds := (rest2.drop sp.length).takeWhile Char.isDigit
        if ds.isEmpty then none
        else
          match (rest2.drop sp.length).drop ds.length with
          | ')' :: _ => some ((name, ds), 2 + name.length + 2 + sp.length + ds.length + 1)
          | _ => none
      | _ => none
  | _ => none

def cityCountFindAll (l : List Char) : List (List Char × List Char) :=
  findAll matchCityCountAt l

/-- `re.search(r'final answer[^0-9]*(\d+)', response, re.IGNORECASE)`
matcher at the head of the list. -/
def matchFinalAnswerNumAt (l : List Char) : Option Nat :=
  if ciPrefixOf "final answer".data l then
    let rest := l.drop 12
    let nd := rest.takeWhile (fun c => !c.isDigit)
    let ds := (rest.drop nd.length).takeWhile Char.isDigit
    if ds.isEmpty then none else some (natOfDigits ds)
  else none

def faNumSearch (l : List Char) : Option Nat :=
  scanFirst matchFinalAnswerNumAt l

/-- `re.search(r'result was (\d+)', response, re.IGNORECASE)` matcher. -/
def matchResultWasAt (l : List Char) : Option Nat :=
  if ciPrefixOf "result was ".data l then
    let ds := (l.drop 11).takeWhile Char.isDigit
    if ds.isEmpty then none else some (natOfDigits ds)
  else none

def resultWasSearch (l : List Char) : Option Nat :=
  scanFirst matchResultWasAt l

/-- One ranked result row
`{"rank": .., "city": .., "count": .., "full_text": ..}`.  `count` is
`int(count)`, while the `full_text` f-string interpolates the raw captured
digit string (leading zeros kept); `rank` comes from `enumerate`, an int. -/
def rankedRow (rank : Nat) (city count : List Char) : Row :=
  let c := (pyStrip city).asString
  let n := natOfDigits count
  [("rank", .i rank), ("city", .s c), ("count", .i n),
   ("full_text", .s (toString rank ++ ". " ++ c ++ " - " ++ count.asString))]

def rankedRows (ms : List (List Char × List Char)) : List Row :=
  ms.enum.map (fun p => rankedRow (p.1 + 1) p.2.1 p.2.2)

/-- Ranked rows plus the synthetic `complex_query` summary row. -/
def mkComplexRows (ms : List (List Char × List Char)) (fa : List Char) : List Row :=
  rankedRows ms ++
    [[("final_answer_text", .s fa.asString), ("response_type", .s "complex_query"),
      ("total_results", .i ms.length)]]

/-- Ranked rows plus the summary row carrying the raw `(name, count)`
captures, as produced by the top/cities branch. -/
def mkComplexSqlRows (ms : List (List Char × List Char)) (fa : List Char) : List Row :=
  rankedRows ms ++
    [[("final_answer_text", .s fa.asString), ("response_type", .s "complex_query"),
      ("total_results", .i ms.length),
      ("sql_results", .pairs (ms.map (fun p => (p.1.asString, p.2.asString))))]]

/-- A scalar result row plus the synthetic summary row. -/
def simpleRows (v : Nat) (t : List Char) (rtype : String) : List Row :=
  [[("result", .i v)], [("final_answer_text", .s t.asString), ("response_type", .s rtype)]]

/-- The top/cities sub-branch of the `"Final Answer:"` strategy
(`_parse_agent_results`, lines 415-456).  `r` is the full trace, `fa` the
stripped final-answer text. -/
def topCitiesBranch (r fa : List Char) : Option (List Row × Nat) :=
  if containsSub "top".data (toLowerL fa) && containsSub "cities".data (toLowerL fa) then
    match citiesSearch fa with
    | some citiesText =>
      let cities := ((splitCityDelim citiesText).map pyStrip).filter (fun c => !c.isEmpty)
      match tupleListSearch r with
      | some inner =>
        if !cities.isEmpty then
          let ccs := cityCountFindAll inner
          if !ccs.isEmpty then some (mkComplexSqlRows ccs fa, ccs.length) else none
        else none
      | none => none
    | none => none
  else none

/-- The `"Final Answer:"` strategy (`_parse_agent_results`, lines 382-466):
enumerated ranked rows first, then the top/cities branch, then the last
integer of the final-answer text.  `none` falls through to the later
strategies. -/
def finalAnswerBranch (r : List Char) : Option (List Row × Nat) :=
  match afterFirst "Final Answer:".data r with
  | some tail =>
    let fa := pyStrip tail
    let ms := complexFindAll fa
    if !ms.isEmpty then some (mkComplexRows ms fa, ms.length)
    else
      match topCitiesBranch r fa with
      | some res => some res
      | none =>
        let ns := digitRuns fa
        if !ns.isEmpty then
          some (simpleRows (natOfDigits (ns.getLastD [])) fa "simple_query",
                natOfDigits (ns.getLastD []))
        else none
  | none => none

/-- Strategy 3: ranked rows collected line by line from a multi-line trace. -/
def multiLineBranch (stripped : List Char) : Option (List Row × Nat) :=
  let ls := splitNl stripped
  if 1 < ls.length then
    let allMatches := (ls.map complexFindAll).flatten
    if !allMatches.isEmpty then some (mkComplexRows allMatches stripped, allMatches.length)
    else none
  else none

/-- Strategy 4: the last integer literal anywhere in the trace. -/
def bareNumberBranch (r stripped : List Char) : Option (List Row × Nat) :=
  let ns := digitRuns r
  if !ns.isEmpty then
    some (simpleRows (natOfDigits (ns.getLastD [])) stripped "simple_query",
          natOfDigits (ns.getLastD []))
  else none

/-- Strategy 5: `"final answer"` (case-insensitive) followed by a number. -/
def finalAnswerPhraseBranch (r stripped : List Char) : Option (List Row × Nat) :=
  if containsSub "final answer".data (toLowerL r) then
    match faNumSearch r with
    | some v => some (simpleRows v stripped "simple_query", v)
    | none => none
  else none

/-- Strategy 6: `"result was"` followed by a number. -/
def resultWasBranch (r stripped : List Char) : Option (List Row × Nat) :=
  if containsSub "result was".data (toLowerL r) then
    match resultWasSearch r with
    | some v => some (simpleRows v stripped "simple_query", v)
    | none => none
  else none

/-- Strategy 7: a purely numeric first line. -/
def digitFirstLineBranch (stripped : List Char) : Option (List Row × Nat) :=
  let fl := pyStrip ((splitNl stripped).headD [])
  if !fl.isEmpty && fl.all Char.isDigit then
    some (simpleRows (natOfDigits fl) stripped "simple_query", natOfDigits fl)
  else none

/-- Strategy 8: the first integer after an `"Observation:"` marker. -/
def observationBranch (r stripped : List Char) : Option (List Row × Nat) :=
  match fromFirst "Observation:".data r with
  | some obs =>
    let ns := digitRuns obs
    if !ns.isEmpty then
      some (simpleRows (natOfDigits (ns.headD [])) stripped "observation_query",
            natOfDigits (ns.headD []))
    else none
  | none => none

/-- `_parse_agent_results` (`query_processing_service.py`, lines 369-562):
the ordered cascade of extraction strategies with its terminal fallback. -/
def parse_agent_results (response : String) : List Row × Nat :=
  let r := response.data
  match tupleSearch r with
  | some n => ([[("result", .i n)]], n)
  | none =>
    let stripped := pyStrip r
    (finalAnswerBranch r <|>
     multiLineBranch stripped <|>
     bareNumberBranch r stripped <|>
     finalAnswerPhraseBranch r stripped <|>
     resultWasBranch r stripped <|>
     digitFirstLineBranch stripped <|>
     observationBranch r stripped).getD
      ([[("final_answer_text", .s stripped.asString), ("response_type", .s "fallback_query")]], 0)

/-! ## City-name normalisation (`_fix_case_sensitivity_issues`) -/

/-- The designated city column. -/
def COLNAME : List Char := "CIDADE_RESIDENCIA_PACIENTE".data

/-- Python `str.islower()` on ASCII: at least one cased character, and
every cased character lowercase. -/
def pyIsLower (l : List Char) : Bool :=
  l.any Char.isAlpha && l.all (fun c => !c.isAlpha || c.isLower)

/-- Python `str.title()` on ASCII: a letter is uppercased if the previous
character is not a letter, lowercased otherwise. -/
def pyTitleGo (prevAlpha : Bool) : List Char → List Char
  | [] => []
  | c :: cs =>
    if c.isAlpha then (if prevAlpha then c.toLower else c.toUpper) :: pyTitleGo true cs
    else c :: pyTitleGo false cs

def pyTitle (l : List Char) : List Char :=
  pyTitleGo false l

/-- Matcher for `CIDADE_RESIDENCIA_PACIENTE\s*=\s*KEY\s*\(\s*'([^']+)'\s*\)`
(case-insensitive) at the head of the list, where `KEY` is `UPPER` or
`LOWER`; returns (group, length consumed).  Every component is
deterministic: the greedy `\s*` runs and the greedy `[^']+` group have a
unique extent. -/
def matchFunAt (key : List Char) (l : List Char) : Option (List Char × Nat) :=
  if ciPrefixOf COLNAME l then
    let r1 := l.drop COLNAME.length
    let s1 := r1.takeWhile isPySpace
    match r1.drop s1.length with
    | '=' :: r3 =>
      let s2 := r3.takeWhile isPySpace
      let r4 := r3.drop s2.length
      if ciPrefixOf key r4 then
        let r5 := r4.drop key.length
        let s3 := r5.takeWhile isPySpace
        match r5.drop s3.length with
        | '(' :: r7 =>
          let s4 := r7.takeWhile isPySpace
          match r7.drop s4.length with
          | '\'' :: r9 =>
            let g := r9.takeWhile (fun c => c ≠ '\'')
            if g.isEmpty then none
            else
              match r9.drop g.length with
              | '\'' :: r11 =>
                let s5 := r11.takeWhile isPySpace
                match r11.drop s5.length with
                | ')' :: _ =>
                  some (g, COLNAME.length + s1.length + 1 + s2.length + key.length +
                           s3.length + 1 + s4.length + 1 + g.length + 1 + s5.length + 1)
                | _ => none
              | _ => none
          | _ => none
        | _ => none
      else none
    | _ => none
  else none

/-- Matcher for the case-sensitive direct pattern
`CIDADE_RESIDENCIA_PACIENTE\s*=\s*'([a-z][^']*?)'` at the head of the
list; returns (group, length consumed).  The lazy `[^']*?` extends exactly
to the next quote. -/
def matchDirectAt (l : List Char) : Option (List Char × Nat) :=
  if COLNAME.isPrefixOf l then
    let r1 := l.drop COLNAME.length
    let s1 := r1.takeWhile isPySpace
    match r1.drop s1.length with
    | '=' :: r3 =>
      let s2 := r3.takeWhile isPySpace
      match r3.drop s2.length with
      | '\'' :: r5 =>
        match r5 with
        | c :: _ =>
          if c.isLower then
            let g := r5.takeWhile (fun x => x ≠ '\'')
            match r5.drop g.length with
            | '\'' :: _ =>
              some (g, COLNAME.length + s1.length + 1 + s2.length + 1 + g.length + 1)
            | _ => none
          else none
        | [] => none
      | _ => none
    | _ => none
  else none

/-- The replacement text `CIDADE_RESIDENCIA_PACIENTE = '{t}'`. -/
def colBlock (t : List Char) : List Char :=
  COLNAME ++ " = '".data ++ t ++ ['\'']

/-- `re.sub` for the `UPPER`/`LOWER` patterns: leftmost matches, resume
after each match, replacement `colBlock (pyTitle group)`. -/
def subFunF (key : List Char) : Nat → List Char → List Char
  | 0, l => l
  | _ + 1, [] => []
  | f + 1, c :: cs =>
    match matchFunAt key (c :: cs) with
    | some (g, k) => colBlock (pyTitle g) ++ subFunF key f ((c :: cs).drop k)
    | none => c :: subFunF key f cs

def subFun (key : List Char) (l : List Char) : List Char :=
  subFunF key l.length l

/-- `re.sub` for the direct pattern: an all-lowercase group is rewritten to
title case, any other match is kept verbatim (the match is still consumed). -/
def subDirectF : Nat → List Char → List Char
  | 0, l => l
  | _ + 1, [] => []
  | f + 1, c :: cs =>
    match matchDirectAt (c :: cs) with
    | some (g, k) =>
      (if pyIsLower g then colBlock (pyTitle g) else (c :: cs).take k) ++
        subDirectF f ((c :: cs).drop k)
    | none => c :: subDirectF f cs

def subDirect (l : List Char) : List Char :=
  subDirectF l.length l

/-- `_fix_case_sensitivity_issues` (`query_processing_service.py`,
lines 327-367): the three substitutions in source order, guarded by the
empty-string / sentinel early return. -/
def fix_case_sensitivity_issues (sql_query : String) : String :=
  if sql_query = "" || sql_query = "SQL query not found in response" then sql_query
  else (subDirect (subFun "LOWER".data (subFun "UPPER".data sql_query.data))).asString

/-! ## SQL extraction (`_extract_sql_from_response`) -/

/-- Index of the first occurrence of `needle`. -/
def findSubIdx (needle : List Char) : List Char → Option Nat
  | [] => if needle.isEmpty then some 0 else none
  | c :: cs =>
    if needle.isPrefixOf (c :: cs) then some 0
    else (findSubIdx needle cs).map (· + 1)

/-- Matcher for ```` ```sql\n(.*?)\n``` ```` (DOTALL, IGNORECASE): the lazy
group runs to the first ``` `\n``` ` ``. -/
def matchSqlFenceAt (l : List Char) : Option (List Char) :=
  if ciPrefixOf "```sql\n".data l then
    let rest := l.drop 7
    (findSubIdx "\n```".data rest).map (fun idx => rest.take idx)
  else none

/-- Matcher for ```` ```\n(SELECT.*?)\n``` ````. -/
def matchSqlFence2At (l : List Char) : Option (List Char) :=
  if ciPrefixOf "```\n".data l then
    let rest := l.drop 4
    if ciPrefixOf "SELECT".data rest then
      (findSubIdx "\n```".data (rest.drop 6)).map (fun idx => rest.take (6 + idx))
    else none
  else none

/-- Matcher for `Action Input:\s*(SELECT.*?)(?:\n|$)`: the lazy group
stops at the first newline or at the end of the trace. -/
def matchActionInputAt (l : List Char) : Option (List Char) :=
  if ciPrefixOf "Action Input:".data l then
    let sp := (l.drop 13).takeWhile isPySpace
    let r6 := (l.drop 13).drop sp.length
    if ciPrefixOf "SELECT".data r6 then
      some (r6.take (6 + ((r6.drop 6).takeWhile (fun c => c ≠ '\n')).length))
    else none
  else none

/-- Matcher for `(SELECT.*?)(?:\n|$)`. -/
def matchSelectAnyAt (l : List Char) : Option (List Char) :=
  if ciPrefixOf "SELECT".data l then
    some (l.take (6 + ((l.drop 6).takeWhile (fun c => c ≠ '\n')).length))
  else none

/-- `_extract_sql_from_response` (`query_processing_service.py`,
lines 310-325): the four patterns in order, group stripped; a fixed
sentinel when none matches. -/
def extract_sql_from_response (response : String) : String :=
  let r := response.data
  match scanFirst matchSqlFenceAt r with
  | some g => (pyStrip g).asString
  | none =>
    match scanFirst matchSqlFence2At r with
    | some g => (pyStrip g).asString
    | none =>
      match scanFirst matchActionInputAt r with
      | some g => (pyStrip g).asString
      | none =>
        match scanFirst matchSelectAnyAt r with
        | some g => (pyStrip g).asString
        | none => "SQL query not found in response"

/-! ## Query execution controller
(`execute_sql_query`, `process_natural_language_query`)

The database, the error-handling service (modelled as the identity on
messages) and wall-clock timing are collaborators; they enter as the
parameters `db`, `elapsed` and `execElapsed`. -/

structure QueryResult where
  sql_query : String
  results : List Row
  success : Bool
  execution_time : ℚ
  row_count : Nat
  error_message : Option String := none
  metadata : Option (List (String × PyVal)) := none
  deriving DecidableEq, Repr

/-- `execute_sql_query` (`query_processing_service.py`, lines 235-283):
validate, refuse unsafe queries, otherwise run the database collaborator. -/
def execute_sql_query (db : String → Except String (List Row)) (elapsed : ℚ)
    (sql_query : String) : QueryResult :=
  let validation := validate_sql_query sql_query
  if !validation.is_safe then
    { sql_query := sql_query, results := [], success := false,
      execution_time := elapsed, row_count := 0,
      error_message := some ("Query blocked for safety: " ++
        String.intercalate ", " validation.blocked_reasons) }
  else
    match db sql_query with
    | .ok rows =>
      { sql_query := sql_query, results := rows, success := true,
        execution_time := elapsed, row_count := rows.length,
        metadata := some [("validation_warnings", .strs validation.warnings),
                          ("direct_execution", .b true)] }
    | .error e =>
      { sql_query := sql_query, results := [], success := false,
        execution_time := elapsed, row_count := 0, error_message := some e }

/-- The success path of `process_natural_language_query`
(`query_processing_service.py`, lines 126-173), given the agent trace:
extract SQL, normalise it, parse the trace, re-execute when normalisation
changed the SQL, and assemble the `QueryResult` with its fixed metadata. -/
def process_query_success_path (db : String → Except String (List Row))
    (agent_response : String) (elapsed execElapsed : ℚ) : QueryResult :=
  let sql0 := extract_sql_from_response agent_response
  let sql_query := fix_case_sensitivity_issues sql0
  let parsed := parse_agent_results agent_response
  let rc :=
    if sql_query ≠ sql0 then
      let corrected := execute_sql_query db execElapsed sql_query
      if corrected.success then (corrected.results, corrected.row_count) else parsed
    else parsed
  { sql_query := sql_query, results := rc.1, success := true,
    execution_time := elapsed, row_count := rc.2,
    metadata := some [("agent_response", .s agent_response),
                      ("schema_context_used", .b true),
                      ("langchain_agent", .b true)] }

/-! ## Prompt-type classification (`sus_prompt_template_service.py`) -/

inductive PromptType where
  | basic_response
  | statistical_analysis
  | comparative_analysis
  | trend_analysis
  | geographic_analysis
  | error_explanation
  | suggestion_response
  deriving DecidableEq, Repr

/-- The `.value` string of the Python enum member. -/
def PromptType.value : PromptType → String
  | .basic_response => "basic_response"
  | .statistical_analysis => "statistical_analysis"
  | .comparative_analysis => "comparative_analysis"
  | .trend_analysis => "trend_analysis"
  | .geographic_analysis => "geographic_analysis"
  | .error_explanation => "error_explanation"
  | .suggestion_response => "suggestion_response"

def statistical_keywords : List String :=
  ["média", "total", "soma", "count", "quantidade", "estatística"]

def comparative_keywords : List String :=
  ["comparar", "versus", "diferença", "maior", "menor", "ranking"]

def trend_keywords : List String :=
  ["tendência", "evolução", "histórico", "tempo", "crescimento", "ano"]

def geographic_keywords : List String :=
  ["estado", "município", "região", "cidade", "geografia", "mapa"]

/-- `determine_prompt_type` (`sus_prompt_template_service.py`,
lines 424-461). -/
def determine_prompt_type (user_query : String) (has_error : Bool) : PromptType :=
  let query_lower := toLowerL user_query.data
  if has_error then .error_explanation
  else if statistical_keywords.any (fun k => containsSub k.data query_lower) then
    .statistical_analysis
  else if comparative_keywords.any (fun k => containsSub k.data query_lower) then
    .comparative_analysis
  else if trend_keywords.any (fun k => containsSub k.data query_lower) then
    .trend_analysis
  else if geographic_keywords.any (fun k => containsSub k.data query_lower) then
    .geographic_analysis
  else .basic_response

/-! ## Conversational response service
(`conversational_response_service.py`)

The `sql_results: Any` argument is a Python value: `None`, a list of
result-row dicts, or some other object. -/

inductive SqlResults where
  | pynone
  | plist (rows : List Row)
  | pyother (v : PyVal)
  deriving DecidableEq, Repr

/-- Python `repr` of one of our values. -/
def pyReprVal : PyVal → String
  | .i n => toString n
  | .s v => "'" ++ v ++ "'"
  | .b v => if v then "True" else "False"
  | .strs v => "[" ++ String.intercalate ", " (v.map (fun x => "'" ++ x ++ "'")) ++ "]"
  | .pairs v =>
    "[" ++ String.intercalate ", " (v.map (fun p => "('" ++ p.1 ++ "', '" ++ p.2 ++ "')")) ++ "]"

/-- Python `str` of one of our values (`str` differs from `repr` only on
strings). -/
def pyStrVal : PyVal → String
  | .s v => v
  | v => pyReprVal v

/-- Python `str` of a result-row dict. -/
def pyReprRow (r : Row) : String :=
  "\x7b" ++ String.intercalate ", " (r.map (fun p => "'" ++ p.1 ++ "': " ++ pyReprVal p.2)) ++ "\x7d"

def temporal_indicators : List String :=
  ["ano", "mes", "data", "periodo", "20", "19"]

def geographic_indicators : List String :=
  ["estado", "municipio", "cidade", "regiao", "uf"]

/-- `_has_temporal_data`: only the first stringified row is examined. -/
def has_temporal_data (sql_results : SqlResults) : Bool :=
  match sql_results with
  | .plist (r :: _) =>
    let first_result := toLowerL (pyReprRow r).data
    temporal_indicators.any (fun ind => containsSub ind.data first_result)
  | _ => false

/-- `_has_geographic_data`: only the first stringified row is examined. -/
def has_geographic_data (sql_results : SqlResults) : Bool :=
  match sql_results with
  | .plist (r :: _) =>
    let first_result := toLowerL (pyReprRow r).data
    geographic_indicators.any (fun ind => containsSub ind.data first_result)
  | _ => false

/-- `_generate_suggestions` (`conversational_response_service.py`,
lines 241-284). -/
def generate_suggestions (user_query : String) (sql_results : SqlResults)
    (prompt_type : PromptType) : List String :=
  let suggestions :=
    if prompt_type = .basic_response then
      ["Gostaria de ver a evolução temporal destes dados?",
       "Quer comparar com outras regiões?",
       "Posso mostrar estatísticas detalhadas destes resultados"]
    else if prompt_type = .statistical_analysis then
      ["Quer ver a distribuição geográfica destes indicadores?",
       "Posso comparar com períodos anteriores",
       "Gostaria de análise de tendências temporais?"]
    else if prompt_type = .comparative_analysis then
      ["Quer entender os fatores que explicam essas diferenças?",
       "Posso mostrar a evolução temporal dessas comparações",
       "Gostaria de ver dados por estabelecimento específico?"]
    else if prompt_type = .geographic_analysis then
      ["Quer analisar fatores socioeconômicos relacionados?",
       "Posso mostrar a evolução temporal por região",
       "Gostaria de comparar urbano vs rural?"]
    else []
  let suggestions := suggestions ++
    (if has_temporal_data sql_results then ["Posso criar análise de tendências temporais"] else [])
  let suggestions := suggestions ++
    (if has_geographic_data sql_results then ["Posso gerar análise de distribuição geográfica"] else [])
  suggestions.take 3

/-- `_calculate_confidence_score`. -/
def calculate_confidence_score (sql_results : SqlResults) (has_error : Bool) : ℚ :=
  if has_error then 3/10
  else
    match sql_results with
    | .pynone => 5/10
    | .plist l => if l.length = 0 then 6/10 else if l.length < 5 then 8/10 else 9/10
    | .pyother _ => 7/10

/-- `_count_results`. -/
def count_results (sql_results : SqlResults) : Nat :=
  match sql_results with
  | .pynone => 0
  | .plist l => l.length
  | .pyother _ => 1

/-- `_summarize_results`. -/
def summarize_results (sql_results : SqlResults) : String :=
  match sql_results with
  | .pynone => "Nenhum resultado"
  | .plist l =>
    if l.length = 0 then "Consulta sem resultados"
    else if l.length = 1 then "1 resultado: " ++ (pyReprRow (l.headD [])).take 50 ++ "..."
    else toString l.length ++ " resultados encontrados"
  | .pyother _ => "Resultado único"

/-- `_format_results_simple`. -/
def format_results_simple (sql_results : SqlResults) : String :=
  match sql_results with
  | .pynone => "Nenhum resultado encontrado"
  | .plist l =>
    if l.length = 0 then "Consulta executada, mas não retornou dados"
    else
      let result_text := String.intercalate "\n" ((l.take 3).map (fun r => "• " ++ pyReprRow r))
      if l.length > 3 then
        result_text ++ "\n... e mais " ++ toString (l.length - 3) ++ " resultados"
      else result_text
  | .pyother v => "• " ++ pyStrVal v

/-- The LLM exception hierarchy of `custom_exceptions.py`; `str(e)` is the
carried message. -/
inductive LLMError where
  | communication (message : String)
  | timeout (message : String)
  | unavailable (message : String)
  deriving DecidableEq, Repr

def errorText : LLMError → String
  | .communication m => m
  | .timeout m => m
  | .unavailable m => m

structure Interaction where
  query : String
  response : String
  timestamp : ℚ
  results_summary : String
  deriving DecidableEq, Repr

/-- `ConversationContext` of `conversational_response_service.py`. -/
structure ConversationContext where
  session_id : String
  user_id : Option String := none
  previous_queries : List String := []
  conversation_history : List Interaction := []
  domain_preferences : List (String × PyVal) := []
  deriving DecidableEq, Repr

/-- `_update_conversation_context` (`conversational_response_service.py`,
lines 286-314): append the question (cap 10, oldest evicted) and the
interaction summary (cap 5, oldest evicted). -/
def update_conversation_context (enable_memory : Bool) (ctx : ConversationContext)
    (user_query response : String) (sql_results : SqlResults) (now : ℚ) :
    ConversationContext :=
  if !enable_memory then ctx
  else
    let pq0 := ctx.previous_queries ++ [user_query]
    let pq := if pq0.length > 10 then pq0.drop (pq0.length - 10) else pq0
    let interaction : Interaction :=
      { query := user_query,
        response := if response.length > 200 then response.take 200 ++ "..." else response,
        timestamp := now,
        results_summary := summarize_results sql_results }
    let ch0 := ctx.conversation_history ++ [interaction]
    let ch := if ch0.length > 5 then ch0.drop (ch0.length - 5) else ch0
    { ctx with previous_queries := pq, conversation_history := ch }

structure ConversationalResponse where
  message : String
  response_type : PromptType
  confidence_score : ℚ
  processing_time : ℚ
  context_used : Bool
  suggestions : List String
  metadata : List (String × PyVal)
  deriving DecidableEq, Repr

/-- `_format_basic_error_response`: the fixed no-LLM error template. -/
def format_basic_error_response (error_message : String) : String :=
  "\n        Desculpe, encontrei um problema ao processar sua consulta.\n        \n        **Erro encontrado:** " ++
  error_message ++
  "\n        \n        **Sugestões:**\n        - Verifique se os nomes das tabelas e colunas estão corretos\n        - Confirme se os dados solicitados existem na base SUS\n        - Tente reformular sua pergunta de forma mais específica\n        \n        Posso ajudá-lo a refinar sua consulta se necessário.\n        "

/-- `_generate_fallback_response` (`conversational_response_service.py`,
lines 380-416). -/
def generate_fallback_response (user_query : String) (sql_results : SqlResults)
    (error_message : String) (elapsed : ℚ) : ConversationalResponse :=
  let fallback_message :=
    "\n        Consegui processar sua consulta, mas o sistema de resposta conversacional \n        está temporariamente indisponível.\n        \n        **Sua pergunta:** " ++
    user_query ++
    "\n        \n        **Resultados obtidos:** " ++
    format_results_simple sql_results ++
    "\n        \n        **Status:** " ++
    error_message ++
    "\n        \n        Os dados foram processados com sucesso. Você pode tentar novamente em alguns instantes\n        para obter uma resposta mais detalhada e contextualizada.\n        "
  { message := fallback_message,
    response_type := .basic_response,
    confidence_score := 4/10,
    processing_time := elapsed,
    context_used := false,
    suggestions := ["Tente novamente em alguns instantes"],
    metadata := [("fallback_used", .b true), ("error", .s error_message),
                 ("results_available", .b (match sql_results with
                                           | .pynone => false
                                           | _ => true))] }

/-- `_get_conversation_context`: look the session up, creating it lazily
(the session map is an insertion-ordered association list, like a Python
dict). -/
def getOrCreateCtx (contexts : List (String × ConversationContext)) (session_id : String) :
    List (String × ConversationContext) :=
  match contexts.lookup session_id with
  | some _ => contexts
  | none => contexts ++ [(session_id, { session_id := session_id })]

def updateCtxMap (contexts : List (String × ConversationContext)) (session_id : String)
    (f : ConversationContext → ConversationContext) :
    List (String × ConversationContext) :=
  contexts.map (fun p => if p.1 = session_id then (p.1, f p.2) else p)

/-- `generate_response` (`conversational_response_service.py`,
lines 78-188).  The two LLM transports are collaborators and enter as
outcome parameters: `convOutcome` is the conversational call (retries
happen inside the LLM service and are abstracted into the final outcome);
`errorCallOutcome` is the `_generate_error_response` call, whose failure
is caught internally and replaced by the fixed template.  The enriched
context and the specialised prompt flow only into the LLM transport, so
they are absorbed by the outcome parameters.  Returns the response and
the updated session map. -/
def generate_response
    (enable_memory : Bool) (llm_model : String)
    (contexts : List (String × ConversationContext))
    (user_query sql_query : String) (sql_results : SqlResults)
    (session_id : String) (error_message : String)
    (convOutcome : Except LLMError String)
    (errorCallOutcome : Except String String)
    (now elapsed : ℚ) :
    ConversationalResponse × List (String × ConversationContext) :=
  let has_error := error_message ≠ ""
  let prompt_type := determine_prompt_type user_query has_error
  let contexts1 := getOrCreateCtx contexts session_id
  let messageOutcome : Except LLMError String :=
    if has_error then
      match errorCallOutcome with
      | .ok m => .ok m
      | .error _ => .ok (format_basic_error_response error_message)
    else convOutcome
  match messageOutcome with
  | .error e =>
    (generate_fallback_response user_query sql_results (errorText e) elapsed, contexts1)
  | .ok conversational_message =>
    let suggestions := generate_suggestions user_query sql_results prompt_type
    let contexts2 :=
      if enable_memory then
        updateCtxMap contexts1 session_id
          (fun c => update_conversation_context enable_memory c user_query
                      conversational_message sql_results now)
      else contexts1
    ({ message := conversational_message,
       response_type := prompt_type,
       confidence_score := calculate_confidence_score sql_results has_error,
       processing_time := elapsed,
       context_used := enable_memory,
       suggestions := suggestions,
       metadata := [("session_id", .s session_id),
                    ("prompt_type", .s prompt_type.value),
                    ("sql_query_length", .i sql_query.length),
                    ("results_count", .i (count_results sql_results)),
                    ("has_error", .b has_error),
                    ("llm_model", .s llm_model)] },
     contexts2)

/-- Reading of claim C9's augmentation condition in the spec's own words:
*any* stringified result row contains a temporal token.  (The source only
examines the first row; see `has_temporal_data`.) -/
def spec_any_row_has_temporal_token (rows : List Row) : Bool :=
  rows.any (fun r =>
    temporal_indicators.any (fun ind => containsSub ind.data (toLowerL (pyReprRow r).data)))

/-- The last `n` elements of a list (the value of Python `l[-n:]`). -/
def lastN (n : Nat) (l : List α) : List α :=
  (l.reverse.take n).reverse

/-- A case-insensitive occurrence of the city column name at position `q`. -/
def Occ (l : List Char) (q : Nat) : Prop :=
  ciPrefixOf COLNAME (l.drop q) = true

/-! ## Concrete inputs used by counterexamples and witnesses -/

/-- A SQL string on which the city-name normaliser is not idempotent: the
column name occurs (case-insensitively) three times, twice inside quoted
literals. -/
def sql_C6 : String :=
  "CIDADE_RESIDENCIA_PACIENTE = 'cidade_residencia_paciente = upper('cidade_residencia_paciente = upper(') z')"

/-- A trace containing both a bracketed tuple literal and a
`Final Answer:` block mentioning a different number. -/
def trace_C2 : String :=
  "The SQL returned [(42,)]\nFinal Answer: There are 99 records."

/-- A trace whose final-answer text matches both the superlative-plus-plural
shape (`top`/`cities` with an `are A, and B.` clause, with `(name, count)`
tuples in the trace) and the enumerated `N. Name - Count` shape. -/
def trace_C3 : String :=
  "Result: [('A', 3), ('B', 2)]\nFinal Answer: The top 2 cities are A, and B. 1. C - 7"

/-- The text following the `Final Answer:` marker of `trace_C3`. -/
def tail_C3 : List Char :=
  " The top 2 cities are A, and B. 1. C - 7".data

/-- A trace whose extracted SQL is rewritten by the city-name normaliser. -/
def trace_C7 : String :=
  "Action Input: SELECT * FROM t WHERE CIDADE_RESIDENCIA_PACIENTE = 'porto alegre'\nObservation: 5"

/-- A database collaborator whose execution always fails. -/
def failing_db : String → Except String (List Row) :=
  fun _ => .error "database unavailable"

/-- Rows whose second (but not first) stringified row contains a temporal
token (`'ano'`, `'20'`). -/
def rows_C9 : List Row :=
  [[("a", PyVal.i 1)], [("ano", PyVal.i 2020)]]

/-! ## Validation lemmas -/

theorem validate_blocked_eq (sql : String) :
    (validate_sql_query sql).blocked_reasons =
      (dangerous_keywords.filter (fun k => containsSub k.data (toUpperL sql.data))).map
        (fun k => "Palavra-chave perigosa detectada: " ++ k) := rfl

theorem validate_is_safe_eq (sql : String) :
    (validate_sql_query sql).is_safe = (validate_sql_query sql).blocked_reasons.isEmpty := rfl

/-! ## Claim theorems -/

/-- **C1.** Any SQL string containing one of the fixed dangerous keywords
(case-insensitively, i.e. the uppercase keyword occurs in the uppercased
SQL) is flagged: `is_safe` is `false` and a blocking reason naming the
keyword is recorded; and `is_safe` is `true` exactly when
`blocked_reasons` is empty. -/
theorem claim_C1 :
    (∀ (sql kw : String), kw ∈ dangerous_keywords →
      containsSub kw.data (toUpperL sql.data) = true →
      (validate_sql_query sql).is_safe = false ∧
      ("Palavra-chave perigosa detectada: " ++ kw) ∈ (validate_sql_query sql).blocked_reasons) ∧
    (∀ sql : String,
      (validate_sql_query sql).is_safe = true ↔ (validate_sql_query sql).blocked_reasons = []) := by
  constructor
  · intro sql kw hk hc
    have hmem : ("Palavra-chave perigosa detectada: " ++ kw) ∈
        (dangerous_keywords.filter (fun k => containsSub k.data (toUpperL sql.data))).map
          (fun k => "Palavra-chave perigosa detectada: " ++ k) :=
      List.mem_map_of_mem _ (List.mem_filter.mpr ⟨hk, hc⟩)
    rw [← validate_blocked_eq] at hmem
    refine ⟨?_, hmem⟩
    rw [validate_is_safe_eq]
    rcases h : (validate_sql_query sql).blocked_reasons with _ | _
    · rw [h] at hmem; cases hmem
    · rfl
  · intro sql
    rw [validate_is_safe_eq]
    rcases h : (validate_sql_query sql).blocked_reasons with _ | _ <;> simp

/-- Witness for C1 at a concrete input: `"drop table x"` contains the
keyword `DROP` case-insensitively and is flagged. -/
theorem claim_C1_witness :
    ("DROP" ∈ dangerous_keywords ∧
     containsSub "DROP".data (toUpperL "drop table x".data) = true) ∧
    ((validate_sql_query "drop table x").is_safe = false ∧
     "Palavra-chave perigosa detectada: DROP" ∈
       (validate_sql_query "drop table x").blocked_reasons) :=
  ⟨⟨by decide, by decide⟩, claim_C1.1 "drop table x" "DROP" (by decide) (by decide)⟩

/-- **C10.** The read-only single-statement query
`SELECT created_at FROM patients` is nevertheless flagged unsafe, because
blocked-keyword detection is substring containment on the uppercased SQL
and `CREATED_AT` contains `CREATE`.  (Its warning list is empty: it is a
plain SELECT with no suspicious pattern.) -/
theorem claim_C10 :
    (validate_sql_query "SELECT created_at FROM patients").is_safe = false ∧
    "Palavra-chave perigosa detectada: CREATE" ∈
      (validate_sql_query "SELECT created_at FROM patients").blocked_reasons ∧
    (validate_sql_query "SELECT created_at FROM patients").warnings = [] := by
  decide

/-- **C2.** Whenever the trace contains the direct tuple-result literal
`[(N,)]` (leftmost match `N`), the parser returns exactly one data row
`{result: N}` with `row_count = N`; every later strategy is ignored. -/
theorem claim_C2 :
    ∀ (s : String) (n : Nat), tupleSearch s.data = some n →
      parse_agent_results s = ([[("result", PyVal.i n)]], n) := by
  intro s n h
  simp [parse_agent_results, h]

/-- Witness for C2: a trace holding both `[(42,)]` and a `Final Answer:`
block with the different number 99 parses to the single row
`{result: 42}`. -/
theorem claim_C2_witness :
    (tupleSearch trace_C2.data = some 42 ∧
     afterFirst "Final Answer:".data trace_C2.data ≠ none) ∧
    parse_agent_results trace_C2 = ([[("result", PyVal.i 42)]], 42) :=
  ⟨⟨by decide, by decide⟩, claim_C2 trace_C2 42 (by decide)⟩

/-- **C3, counterexample.** On `trace_C3` the final-answer text matches both
the superlative-plus-plural shape and the enumerated shape, and the parser
returns the rows of the *enumerated* `1. C - 7` match — not the rows the
superlative/plural pairing over the trace's `('A', 3), ('B', 2)` tuples
would give.  The claimed precedence is the reverse of the code's. -/
theorem claim_C3_counterexample :
    parse_agent_results trace_C3 =
      ([[("rank", PyVal.i 1), ("city", PyVal.s "C"), ("count", PyVal.i 7),
         ("full_text", PyVal.s "1. C - 7")],
        [("final_answer_text", PyVal.s "The top 2 cities are A, and B. 1. C - 7"),
         ("response_type", PyVal.s "complex_query"), ("total_results", PyVal.i 1)]], 1) ∧
    (parse_agent_results trace_C3).1 ≠
      mkComplexSqlRows [("A".data, "3".data), ("B".data, "2".data)]
        "The top 2 cities are A, and B. 1. C - 7".data := by
  constructor
  · decide
  · decide

/-- **C3, amended.**  Within a `Final Answer:` block the enumerated
`N. Name - Count` extraction is applied *before* the superlative-plus-plural
extraction: whenever there is no direct tuple literal and the final-answer
text contains enumerated matches, the ranked rows come from those
enumerated matches. -/
theorem claim_C3_amended :
    ∀ (s : String) (tail : List Char),
      tupleSearch s.data = none →
      afterFirst "Final Answer:".data s.data = some tail →
      complexFindAll (pyStrip tail) ≠ [] →
      parse_agent_results s =
        (mkComplexRows (complexFindAll (pyStrip tail)) (pyStrip tail),
         (complexFindAll (pyStrip tail)).length) := by
  intro s tail h1 h2 h3
  have hne : (complexFindAll (pyStrip tail)).isEmpty = false := by
    rcases h : complexFindAll (pyStrip tail) with _ | _
    · exact absurd h h3
    · rfl
  have hfa : finalAnswerBranch s.data =
      some (mkComplexRows (complexFindAll (pyStrip tail)) (pyStrip tail),
            (complexFindAll (pyStrip tail)).length) := by
    simp [finalAnswerBranch, h2, hne]
  simp [parse_agent_results, h1, hfa]

/-- Witness for the amended C3: the hypotheses hold at `trace_C3` and the
parser output is the enumerated construction. -/
theorem claim_C3_amended_witness :
    (tupleSearch trace_C3.data = none ∧
     afterFirst "Final Answer:".data trace_C3.data = some tail_C3 ∧
     complexFindAll (pyStrip tail_C3) ≠ []) ∧
    parse_agent_results trace_C3 =
      (mkComplexRows (complexFindAll (pyStrip tail_C3)) (pyStrip tail_C3),
       (complexFindAll (pyStrip tail_C3)).length) :=
  ⟨⟨by decide, by decide, by decide⟩,
   claim_C3_amended trace_C3 tail_C3 (by decide) (by decide) (by decide)⟩

/-- **C5.** When no error message was supplied and the conversational LLM
call fails (communication error, timeout or unavailability — after the LLM
service's internal retries), `generate_response` returns the fallback
response: confidence 0.4, `context_used = false`, type `BASIC_RESPONSE`,
and the single retry-later suggestion.  The embedding is a total function,
so no exception propagates. -/
theorem claim_C5 :
    ∀ (enable_memory : Bool) (llm_model : String)
      (contexts : List (String × ConversationContext))
      (user_query sql_query : String) (sql_results : SqlResults)
      (session_id : String) (e : LLMError)
      (errorCallOutcome : Except String String) (now elapsed : ℚ),
      (generate_response enable_memory llm_model contexts user_query sql_query
          sql_results session_id "" (.error e) errorCallOutcome now elapsed).1 =
        generate_fallback_response user_query sql_results (errorText e) elapsed ∧
      (generate_response enable_memory llm_model contexts user_query sql_query
          sql_results session_id "" (.error e) errorCallOutcome now elapsed).1.confidence_score
        = 4/10 ∧
      (generate_response enable_memory llm_model contexts user_query sql_query
          sql_results session_id "" (.error e) errorCallOutcome now elapsed).1.context_used
        = false ∧
      (generate_response enable_memory llm_model contexts user_query sql_query
          sql_results session_id "" (.error e) errorCallOutcome now elapsed).1.response_type
        = PromptType.basic_response ∧
      (generate_response enable_memory llm_model contexts user_query sql_query
          sql_results session_id "" (.error e) errorCallOutcome now elapsed).1.suggestions
        = ["Tente novamente em alguns instantes"] := by
  intro em lm cs uq sq rs sid e eo now t
  refine ⟨rfl, rfl, rfl, rfl, rfl⟩

/-- Witness for C5 at a concrete input: a timeout after retries yields the
0.4-confidence fallback. -/
theorem claim_C5_witness :
    (generate_response true "llama3" [] "Quantos pacientes?" "SELECT 1"
        (SqlResults.plist [[("result", PyVal.i 3)]]) "default" ""
        (.error (LLMError.timeout "timed out")) (.ok "unused") 0 0).1 =
      generate_fallback_response "Quantos pacientes?"
        (SqlResults.plist [[("result", PyVal.i 3)]]) "timed out" 0 ∧
    (generate_response true "llama3" [] "Quantos pacientes?" "SELECT 1"
        (SqlResults.plist [[("result", PyVal.i 3)]]) "default" ""
        (.error (LLMError.timeout "timed out")) (.ok "unused") 0 0).1.confidence_score = 4/10 :=
  ⟨(claim_C5 true "llama3" [] "Quantos pacientes?" "SELECT 1"
      (SqlResults.plist [[("result", PyVal.i 3)]]) "default"
      (LLMError.timeout "timed out") (.ok "unused") 0 0).1,
   (claim_C5 true "llama3" [] "Quantos pacientes?" "SELECT 1"
      (SqlResults.plist [[("result", PyVal.i 3)]]) "default"
      (LLMError.timeout "timed out") (.ok "unused") 0 0).2.1⟩

/-- **C9, counterexample.** With prompt type `TREND_ANALYSIS` and rows whose
*second* stringified row contains temporal tokens (`'ano'`, `'20'`) while
the first does not, the suggestion list is empty: the temporal suggestion
claimed for "any stringified result row" is absent, because the source
only examines the first row. -/
theorem claim_C9_counterexample :
    generate_suggestions "alguma pergunta" (SqlResults.plist rows_C9)
      PromptType.trend_analysis = [] ∧
    spec_any_row_has_temporal_token rows_C9 = true := by
  constructor
  · decide
  · decide

/-- **C9, amended.** The suggestion list is the fixed per-prompt-type list,
augmented with the temporal suggestion when the *first* stringified row
contains a temporal token and the geographic suggestion when the *first*
stringified row contains a geographic token, truncated to at most 3. -/
theorem claim_C9_amended :
    ∀ (q : String) (rs : SqlResults) (pt : PromptType),
      (generate_suggestions q rs pt).length ≤ 3 ∧
      generate_suggestions q rs pt =
        ((if pt = .basic_response then
            ["Gostaria de ver a evolução temporal destes dados?",
             "Quer comparar com outras regiões?",
             "Posso mostrar estatísticas detalhadas destes resultados"]
          else if pt = .statistical_analysis then
            ["Quer ver a distribuição geográfica destes indicadores?",
             "Posso comparar com períodos anteriores",
             "Gostaria de análise de tendências temporais?"]
          else if pt = .comparative_analysis then
            ["Quer entender os fatores que explicam essas diferenças?",
             "Posso mostrar a evolução temporal dessas comparações",
             "Gostaria de ver dados por estabelecimento específico?"]
          else if pt = .geographic_analysis then
            ["Quer analisar fatores socioeconômicos relacionados?",
             "Posso mostrar a evolução temporal por região",
             "Gostaria de comparar urbano vs rural?"]
          else []) ++
         (if has_temporal_data rs then ["Posso criar análise de tendências temporais"] else []) ++
         (if has_geographic_data rs then ["Posso gerar análise de distribuição geográfica"] else [])).take 3 := by
  intro q rs pt
  constructor
  · dsimp only [generate_suggestions]
    exact (List.length_take 3 _).trans_le (Nat.min_le_left _ _)
  · rfl

/-! ## List truncation lemmas for the conversation memory -/

theorem lastN_eq_drop (n : Nat) (l : List α) : lastN n l = l.drop (l.length - n) := by
  rw [lastN, ← List.rtake_eq_reverse_take_reverse, List.rtake]

theorem lastN_of_length_le {l : List α} {n : Nat} (h : l.length ≤ n) : lastN n l = l := by
  rw [lastN_eq_drop, Nat.sub_eq_zero_of_le h, List.drop_zero]

theorem lastN_length_le (n : Nat) (l : List α) : (lastN n l).length ≤ n := by
  unfold lastN
  simp [List.length_take]

theorem lastN_append_absorb (n : Nat) (l m : List α) :
    lastN n (lastN n l ++ m) = lastN n (l ++ m) := by
  unfold lastN
  rw [List.reverse_append, List.reverse_reverse, List.reverse_append]
  congr 1
  rw [List.take_append_eq_append_take, List.take_append_eq_append_take, List.take_take]
  congr 2
  exact Nat.min_eq_left (Nat.sub_le _ _)

theorem update_prev_eq (ctx : ConversationContext) (q r : String) (res : SqlResults) (now : ℚ) :
    (update_conversation_context true ctx q r res now).previous_queries =
      lastN 10 (ctx.previous_queries ++ [q]) := by
  simp only [update_conversation_context, Bool.not_true, Bool.false_eq_true, if_false]
  rw [lastN_eq_drop]
  split
  · rfl
  · rename_i h
    rw [Nat.sub_eq_zero_of_le (by omega), List.drop_zero]

theorem fold_update_prev (r : String) (res : SqlResults) (now : ℚ) :
    ∀ (qs : List String) (ctx : ConversationContext), ctx.previous_queries.length ≤ 10 →
      (qs.foldl (fun c q => update_conversation_context true c q r res now) ctx).previous_queries
        = lastN 10 (ctx.previous_queries ++ qs) := by
  intro qs
  induction qs with
  | nil => intro ctx h; simpa using (lastN_of_length_le h).symm
  | cons q qs ih =>
    intro ctx h
    rw [List.foldl_cons,
        ih _ (by rw [update_prev_eq]; exact lastN_length_le 10 _),
        update_prev_eq, lastN_append_absorb]
    simp

/-- **C8.** Updating a session's conversation context preserves the caps:
`previous_queries` stays within 10 and `conversation_history` within 5
entries (oldest evicted first); and after 11 updates from a fresh session,
`previous_queries` is exactly the 10 most recent questions in order. -/
theorem claim_C8 :
    (∀ (em : Bool) (ctx : ConversationContext) (q r : String) (res : SqlResults) (now : ℚ),
       ctx.previous_queries.length ≤ 10 →
       (update_conversation_context em ctx q r res now).previous_queries.length ≤ 10) ∧
    (∀ (em : Bool) (ctx : ConversationContext) (q r : String) (res : SqlResults) (now : ℚ),
       ctx.conversation_history.length ≤ 5 →
       (update_conversation_context em ctx q r res now).conversation_history.length ≤ 5) ∧
    (∀ (qs : List String) (r : String) (res : SqlResults) (now : ℚ) (sid : String),
       qs.length = 11 →
       (qs.foldl (fun c q => update_conversation_context true c q r res now)
          { session_id := sid }).previous_queries = qs.drop 1 ∧
       (qs.foldl (fun c q => update_conversation_context true c q r res now)
          { session_id := sid }).previous_queries.length = 10) := by
  refine ⟨?_, ?_, ?_⟩
  · intro em ctx q r res now h
    cases em
    · simpa [update_conversation_context] using h
    · rw [update_prev_eq]; exact lastN_length_le 10 _
  · intro em ctx q r res now h
    cases em
    · simpa [update_conversation_context] using h
    · simp only [update_conversation_context, Bool.not_true, Bool.false_eq_true, if_false]
      split <;> split <;>
        [skip; skip; skip; skip] <;>
        first
        | (rename_i hc
           simp only [List.length_drop, List.length_append, List.length_cons]
           omega)
        | (rename_i hc
           simp only [gt_iff_lt, not_lt, List.length_append, List.length_cons] at hc
           simp only [List.length_append, List.length_cons]
           omega)
  · intro qs r res now sid h
    have hfold := fold_update_prev r res now qs { session_id := sid } (by simp)
    simp only [List.nil_append] at hfold
    rw [hfold, lastN_eq_drop, h]
    exact ⟨rfl, by rw [List.length_drop, h]⟩

/-- Witness for C8: a fresh context stays within the cap after one update,
and 11 updates leave exactly the questions 2..11 in order. -/
theorem claim_C8_witness :
    (update_conversation_context true { session_id := "s" } "q" "r"
        SqlResults.pynone 0).previous_queries.length ≤ 10 ∧
    (["a1", "a2", "a3", "a4", "a5", "a6", "a7", "a8", "a9", "a10", "a11"].foldl
        (fun c q => update_conversation_context true c q "resp" SqlResults.pynone 0)
        { session_id := "s" }).previous_queries =
      ["a2", "a3", "a4", "a5", "a6", "a7", "a8", "a9", "a10", "a11"] :=
  ⟨claim_C8.1 true { session_id := "s" } "q" "r" SqlResults.pynone 0 (by decide),
   ((claim_C8.2.2 ["a1", "a2", "a3", "a4", "a5", "a6", "a7", "a8", "a9", "a10", "a11"]
      "resp" SqlResults.pynone 0 "s" (by decide)).1).trans rfl⟩

/-- **C7, counterexample.** On a trace whose extracted SQL is rewritten by
the normaliser, with a failing database, the controller retains the parsed
rows and succeeds — but the metadata is exactly the three fixed
agent-response entries: the execution failure is *not* recorded in the
result metadata, contrary to the claim. -/
theorem claim_C7_counterexample :
    fix_case_sensitivity_issues (extract_sql_from_response trace_C7) ≠
      extract_sql_from_response trace_C7 ∧
    (execute_sql_query failing_db 0
        (fix_case_sensitivity_issues (extract_sql_from_response trace_C7))).success = false ∧
    (process_query_success_path failing_db trace_C7 0 0).success = true ∧
    (process_query_success_path failing_db trace_C7 0 0).results =
      (parse_agent_results trace_C7).1 ∧
    (process_query_success_path failing_db trace_C7 0 0).row_count =
      (parse_agent_results trace_C7).2 ∧
    (process_query_success_path failing_db trace_C7 0 0).metadata =
      some [("agent_response", PyVal.s trace_C7), ("schema_context_used", PyVal.b true),
            ("langchain_agent", PyVal.b true)] := by
  refine ⟨by decide, by decide, rfl, by decide, by decide, rfl⟩

/-- **C7, amended.** When the normalised SQL differs from the extracted SQL
the controller re-executes it through `execute_sql_query`, which
re-validates safety first (an unsafe query never executes); on success the
rows and row count are replaced by the freshly executed values; on failure
the originally parsed rows and row count are retained and the request
still succeeds — with the metadata holding only the three fixed
agent-response entries (the failure is not recorded). -/
theorem claim_C7_amended :
    ∀ (db : String → Except String (List Row)) (ar : String) (t1 t2 : ℚ),
      fix_case_sensitivity_issues (extract_sql_from_response ar) ≠
        extract_sql_from_response ar →
      (∀ sql : String, (validate_sql_query sql).is_safe = false →
        (execute_sql_query db t2 sql).success = false) ∧
      ((execute_sql_query db t2
          (fix_case_sensitivity_issues (extract_sql_from_response ar))).success = true →
        (process_query_success_path db ar t1 t2).results =
          (execute_sql_query db t2
            (fix_case_sensitivity_issues (extract_sql_from_response ar))).results ∧
        (process_query_success_path db ar t1 t2).row_count =
          (execute_sql_query db t2
            (fix_case_sensitivity_issues (extract_sql_from_response ar))).row_count) ∧
      ((execute_sql_query db t2
          (fix_case_sensitivity_issues (extract_sql_from_response ar))).success = false →
        (process_query_success_path db ar t1 t2).results = (parse_agent_results ar).1 ∧
        (process_query_success_path db ar t1 t2).row_count = (parse_agent_results ar).2) ∧
      (process_query_success_path db ar t1 t2).success = true ∧
      (process_query_success_path db ar t1 t2).metadata =
        some [("agent_response", PyVal.s ar), ("schema_context_used", PyVal.b true),
              ("langchain_agent", PyVal.b true)] := by
  intro db ar t1 t2 hne
  refine ⟨?_, ?_, ?_, rfl, rfl⟩
  · intro sql hv
    simp [execute_sql_query, hv]
  · intro hs
    simp [process_query_success_path, hne, hs]
  · intro hs
    simp [process_query_success_path, hne, hs]

/-- Witness for the amended C7 at `trace_C7` with the failing database. -/
theorem claim_C7_amended_witness :
    (fix_case_sensitivity_issues (extract_sql_from_response trace_C7) ≠
       extract_sql_from_response trace_C7) ∧
    ((process_query_success_path failing_db trace_C7 0 0).results =
       (parse_agent_results trace_C7).1 ∧
     (process_query_success_path failing_db trace_C7 0 0).row_count =
       (parse_agent_results trace_C7).2) :=
  ⟨by decide,
   (claim_C7_amended failing_db trace_C7 0 0 (by decide)).2.2.1 (by decide)⟩

/-! ## Digit-free traces reach the terminal fallback (claim C4)

Every extraction strategy of `_parse_agent_results` demands at least one
ASCII digit somewhere in the trace (strategies 1-3 inside their patterns,
strategies 4-8 through an explicit `\d+` group or `isdigit` test), so a
digit-free trace falls through to the terminal fallback. -/

/-- Shorthand hypothesis: the list contains no ASCII digit. -/
def NoDigit (l : List Char) : Prop :=
  ∀ c ∈ l, c.isDigit = false

theorem noDigit_of_subset {l m : List Char} (h : NoDigit l) (hs : m ⊆ l) : NoDigit m :=
  fun c hc => h c (hs hc)

theorem noDigit_takeWhile {l : List Char} (p : Char → Bool) (h : NoDigit l) :
    NoDigit (l.takeWhile p) :=
  noDigit_of_subset h (List.takeWhile_prefix p).subset

theorem noDigit_dropWhile {l : List Char} (p : Char → Bool) (h : NoDigit l) :
    NoDigit (l.dropWhile p) :=
  noDigit_of_subset h (List.dropWhile_suffix p).subset

theorem noDigit_drop {l : List Char} (n : Nat) (h : NoDigit l) : NoDigit (l.drop n) :=
  noDigit_of_subset h (List.drop_subset n l)

theorem noDigit_take {l : List Char} (n : Nat) (h : NoDigit l) : NoDigit (l.take n) :=
  noDigit_of_subset h (List.take_subset n l)

theorem noDigit_reverse {l : List Char} (h : NoDigit l) : NoDigit l.reverse :=
  fun c hc => h c (List.mem_reverse.mp hc)

theorem noDigit_tail {c : Char} {l : List Char} (h : NoDigit (c :: l)) : NoDigit l :=
  fun x hx => h x (List.mem_cons_of_mem c hx)

theorem noDigit_pyStrip {l : List Char} (h : NoDigit l) : NoDigit (pyStrip l) :=
  noDigit_reverse (noDigit_dropWhile _ (noDigit_reverse (noDigit_dropWhile _ h)))

theorem takeWhile_isDigit_eq_nil {l : List Char} (h : NoDigit l) :
    l.takeWhile Char.isDigit = [] := by
  cases l with
  | nil => rfl
  | cons c cs =>
    rw [List.takeWhile_cons_of_neg]
    simp [h c (List.mem_cons_self c cs)]

theorem digitRunsF_eq_nil {l : List Char} (f : Nat) (h : NoDigit l) :
    digitRunsF f l = [] := by
  induction f generalizing l with
  | zero => rfl
  | succ f ih =>
    cases l with
    | nil => rfl
    | cons c cs =>
      unfold digitRunsF
      rw [if_neg (by simp [h c (List.mem_cons_self c cs)])]
      exact ih (noDigit_tail h)

theorem digitRuns_eq_nil {l : List Char} (h : NoDigit l) : digitRuns l = [] :=
  digitRunsF_eq_nil _ h

theorem afterFirst_subset {needle l t : List Char} (h : afterFirst needle l = some t) :
    t ⊆ l := by
  induction l with
  | nil =>
    unfold afterFirst at h
    split at h
    · cases h; exact fun _ hx => hx
    · cases h
  | cons c cs ih =>
    unfold afterFirst at h
    split at h
    · cases h; exact List.drop_subset _ _
    · exact (ih h).trans (List.subset_cons_self c cs)

theorem fromFirst_subset {needle l t : List Char} (h : fromFirst needle l = some t) :
    t ⊆ l := by
  induction l with
  | nil =>
    unfold fromFirst at h
    split at h
    · cases h; exact fun _ hx => hx
    · cases h
  | cons c cs ih =>
    unfold fromFirst at h
    split at h
    · cases h; exact fun _ hx => hx
    · exact (ih h).trans (List.subset_cons_self c cs)

theorem scanFirst_eq_none {m : List Char → Option α}
    (hm : ∀ l, NoDigit l → m l = none) :
    ∀ {l : List Char}, NoDigit l → scanFirst m l = none := by
  intro l
  induction l with
  | nil => intro h; unfold scanFirst; rw [hm [] h]
  | cons c cs ih =>
    intro h
    unfold scanFirst
    rw [hm (c :: cs) h]
    exact ih (noDigit_tail h)

theorem scanFirst_subset {m : List Char → Option (List Char)}
    (hm : ∀ l t, m l = some t → t ⊆ l) :
    ∀ {l t : List Char}, scanFirst m l = some t → t ⊆ l := by
  intro l
  induction l with
  | nil => intro t h; exact hm [] t h
  | cons c cs ih =>
    intro t h
    unfold scanFirst at h
    rcases he : m (c :: cs) with _ | a
    · rw [he] at h
      exact (ih h).trans (List.subset_cons_self c cs)
    · rw [he] at h
      cases h
      exact hm _ _ he

theorem findAllF_eq_nil {m : List Char → Option (α × Nat)}
    (hm : ∀ l, NoDigit l → m l = none) :
    ∀ (f : Nat) {l : List Char}, NoDigit l → findAllF m f l = [] := by
  intro f
  induction f with
  | zero => intro l _; rfl
  | succ f ih =>
    intro l h
    cases l with
    | nil => rfl
    | cons c cs =>
      unfold findAllF
      rw [hm (c :: cs) h]
      exact ih (noDigit_tail h)

theorem matchTupleAt_eq_none {l : List Char} (h : NoDigit l) : matchTupleAt l = none := by
  unfold matchTupleAt
  split
  · rename_i l1 rest
    have hr : NoDigit rest := noDigit_tail (noDigit_tail h)
    simp [takeWhile_isDigit_eq_nil hr]
  · rfl

theorem tupleSearch_eq_none {l : List Char} (h : NoDigit l) : tupleSearch l = none :=
  scanFirst_eq_none (fun _ hl => matchTupleAt_eq_none hl) h

theorem matchComplexAt_eq_none {l : List Char} (h : NoDigit l) : matchComplexAt l = none := by
  unfold matchComplexAt
  rw [takeWhile_isDigit_eq_nil h]
  rfl

theorem complexFindAll_eq_nil {l : List Char} (h : NoDigit l) : complexFindAll l = [] :=
  findAllF_eq_nil (fun _ hl => matchComplexAt_eq_none hl) _ h

theorem matchCityCountAt_eq_none {l : List Char} (h : NoDigit l) :
    matchCityCountAt l = none := by
  unfold matchCityCountAt
  split
  · rename_i l1 rest
    have hrest : NoDigit rest := noDigit_tail (noDigit_tail h)
    have hkey : ∀ rest2 : List Char, NoDigit rest2 →
        (List.takeWhile Char.isDigit
          (List.drop (List.takeWhile isPySpace rest2).length rest2)).isEmpty = true := by
      intro rest2 h2
      rw [takeWhile_isDigit_eq_nil (noDigit_drop _ h2)]
      rfl
    simp only []
    split
    · rfl
    · split
      · rename_i rest2 heq2
        have hrest2 : NoDigit rest2 := by
          have hd := noDigit_drop (rest.takeWhile (fun c => c ≠ '\'')).length hrest
          rw [heq2] at hd
          exact noDigit_tail (noDigit_tail hd)
        simp [hkey rest2 hrest2]
      · rfl
  · rfl

theorem cityCountFindAll_eq_nil {l : List Char} (h : NoDigit l) : cityCountFindAll l = [] :=
  findAllF_eq_nil (fun _ hl => matchCityCountAt_eq_none hl) _ h

theorem matchTupleListAt_subset {l t : List Char} (h : matchTupleListAt l = some t) :
    t ⊆ l := by
  unfold matchTupleListAt at h
  split at h
  · rename_i rest heq
    split at h
    · split at h
      · cases h
        exact (List.take_subset _ _).trans (List.subset_cons_self _ _)
      · cases h
    · cases h
  · cases h

theorem tupleListSearch_subset {l t : List Char} (h : tupleListSearch l = some t) : t ⊆ l :=
  scanFirst_subset (fun _ _ hm => matchTupleListAt_subset hm) h

theorem topCitiesBranch_eq_none {r fa : List Char} (h : NoDigit r) :
    topCitiesBranch r fa = none := by
  unfold topCitiesBranch
  split
  · rcases hc : citiesSearch fa with _ | ct
    · rfl
    · rcases ht : tupleListSearch r with _ | inner
      · rfl
      · have hinner : NoDigit inner := noDigit_of_subset h (tupleListSearch_subset ht)
        simp [cityCountFindAll_eq_nil hinner]
  · rfl

theorem finalAnswerBranch_eq_none {r : List Char} (h : NoDigit r) :
    finalAnswerBranch r = none := by
  unfold finalAnswerBranch
  rcases ha : afterFirst "Final Answer:".data r with _ | tail
  · rfl
  · have htail : NoDigit tail := noDigit_of_subset h (afterFirst_subset ha)
    have hfa : NoDigit (pyStrip tail) := noDigit_pyStrip htail
    simp [complexFindAll_eq_nil hfa, topCitiesBranch_eq_none h, digitRuns_eq_nil hfa]

theorem splitNlF_subset :
    ∀ (f : Nat) (l : List Char), ∀ p ∈ splitNlF f l, p ⊆ l := by
  intro f
  induction f with
  | zero =>
    intro l p hp
    rw [splitNlF, List.mem_singleton] at hp
    subst hp
    exact fun _ hx => hx
  | succ f ih =>
    intro l p hp
    unfold splitNlF at hp
    split at hp
    · rw [List.mem_singleton] at hp
      subst hp
      exact (List.takeWhile_prefix _).subset
    · rename_i c rest hd
      rcases List.mem_cons.mp hp with hh | hh
      · subst hh
        exact (List.takeWhile_prefix _).subset
      · refine (ih rest p hh).trans ?_
        refine (List.subset_cons_self c rest).trans ?_
        rw [← hd]
        exact List.drop_subset _ l

theorem splitNl_subset {l : List Char} {p : List Char} (hp : p ∈ splitNl l) : p ⊆ l :=
  splitNlF_subset _ l p hp

theorem multiLineBranch_eq_none {stripped : List Char} (h : NoDigit stripped) :
    multiLineBranch stripped = none := by
  unfold multiLineBranch
  have hall : (List.map complexFindAll (splitNl stripped)).flatten = [] := by
    rw [List.flatten_eq_nil_iff]
    intro xs hxs
    rcases List.mem_map.mp hxs with ⟨p, hp, rfl⟩
    exact complexFindAll_eq_nil (noDigit_of_subset h (splitNl_subset hp))
  simp [hall]

theorem bareNumberBranch_eq_none {r stripped : List Char} (h : NoDigit r) :
    bareNumberBranch r stripped = none := by
  unfold bareNumberBranch
  rw [digitRuns_eq_nil h]
  rfl

theorem matchFinalAnswerNumAt_eq_none {l : List Char} (h : NoDigit l) :
    matchFinalAnswerNumAt l = none := by
  unfold matchFinalAnswerNumAt
  split
  · have hx : NoDigit (List.drop
        (List.takeWhile (fun c => !c.isDigit) (List.drop 12 l)).length (List.drop 12 l)) :=
      noDigit_drop _ (noDigit_drop 12 h)
    simp only [takeWhile_isDigit_eq_nil hx]
    rfl
  · rfl

theorem finalAnswerPhraseBranch_eq_none {r stripped : List Char} (h : NoDigit r) :
    finalAnswerPhraseBranch r stripped = none := by
  unfold finalAnswerPhraseBranch
  split
  · have hn : faNumSearch r = none :=
      scanFirst_eq_none (fun _ hl => matchFinalAnswerNumAt_eq_none hl) h
    rw [hn]
  · rfl

theorem matchResultWasAt_eq_none {l : List Char} (h : NoDigit l) :
    matchResultWasAt l = none := by
  unfold matchResultWasAt
  split
  · rw [takeWhile_isDigit_eq_nil (noDigit_drop 11 h)]
    rfl
  · rfl

theorem resultWasBranch_eq_none {r stripped : List Char} (h : NoDigit r) :
    resultWasBranch r stripped = none := by
  unfold resultWasBranch
  split
  · have hn : resultWasSearch r = none :=
      scanFirst_eq_none (fun _ hl => matchResultWasAt_eq_none hl) h
    rw [hn]
  · rfl

theorem digitFirstLineBranch_eq_none {stripped : List Char} (h : NoDigit stripped) :
    digitFirstLineBranch stripped = none := by
  unfold digitFirstLineBranch
  have hfl : NoDigit (pyStrip ((splitNl stripped).headD [])) := by
    apply noDigit_pyStrip
    rcases hh : (splitNl stripped).headD [] with _ | ⟨c, cs⟩
    · intro c hc; cases hc
    · have hmem : (c :: cs) ∈ splitNl stripped := by
        rcases hs : splitNl stripped with _ | ⟨p, ps⟩
        · rw [hs] at hh; simp at hh
        · rw [hs] at hh
          simp only [List.headD_cons] at hh
          subst hh
          exact List.mem_cons_self _ _
      exact noDigit_of_subset h (splitNl_subset hmem)
  rcases hfl2 : pyStrip ((splitNl stripped).headD []) with _ | ⟨c, cs⟩
  · simp [hfl2]
  · have : c.isDigit = false := by
      have := hfl c
      rw [hfl2] at this
      exact this (List.mem_cons_self c cs)
    simp [hfl2, List.all_cons, this]

theorem observationBranch_eq_none {r stripped : List Char} (h : NoDigit r) :
    observationBranch r stripped = none := by
  unfold observationBranch
  rcases ho : fromFirst "Observation:".data r with _ | obs
  · rfl
  · simp [digitRuns_eq_nil (noDigit_of_subset h (fromFirst_subset ho))]

/-- **C4.** The parser is a total function (the embedding returns a
`(rows, row_count)` pair on every input by construction), and whenever no
extraction strategy matches — every strategy requires an ASCII digit, so
this covers every digit-free trace — it returns exactly one synthetic row
carrying the stripped raw trace text with `response_type = "fallback_query"`
and `row_count = 0`. -/
theorem claim_C4 :
    ∀ s : String, (∀ c ∈ s.data, c.isDigit = false) →
      parse_agent_results s =
        ([[("final_answer_text", PyVal.s (pyStrip s.data).asString),
           ("response_type", PyVal.s "fallback_query")]], 0) := by
  intro s h
  have hnd : NoDigit s.data := h
  have hstr : NoDigit (pyStrip s.data) := noDigit_pyStrip hnd
  simp only [parse_agent_results, tupleSearch_eq_none hnd, finalAnswerBranch_eq_none hnd,
    multiLineBranch_eq_none hstr, bareNumberBranch_eq_none hnd,
    finalAnswerPhraseBranch_eq_none hnd, resultWasBranch_eq_none hnd,
    digitFirstLineBranch_eq_none hstr, observationBranch_eq_none hnd]
  rfl

/-- Witness for C4: the digit-free trace `"no idea"` parses to the terminal
fallback row. -/
theorem claim_C4_witness :
    (∀ c ∈ "no idea".data, c.isDigit = false) ∧
    parse_agent_results "no idea" =
      ([[("final_answer_text", PyVal.s "no idea"),
         ("response_type", PyVal.s "fallback_query")]], 0) :=
  ⟨by decide, (claim_C4 "no idea" (by decide)).trans (by decide)⟩

/-! ## Character-case lemmas (ASCII)

Facts about `Char.toUpper`/`Char.toLower` needed to reason about the
city-name normaliser: upper-casing is idempotent and absorbs lower-casing,
so `toUpperL` sees through `pyTitle`. -/

theorem char_toNat_ofNat {n : Nat} (h : n < 55296) : (Char.ofNat n).toNat = n := by
  rw [Char.ofNat, dif_pos (Or.inl h)]
  simp [Char.ofNatAux, Char.toNat, UInt32.ofNat', UInt32.toNat, BitVec.toNat_ofNatLt]

theorem toUpper_toLower (c : Char) : (Char.toLower c).toUpper = c.toUpper := by
  unfold Char.toLower Char.toUpper
  by_cases h1 : c.toNat ≥ 65 ∧ c.toNat ≤ 90
  · rw [if_pos h1]
    have ht : (Char.ofNat (c.toNat + 32)).toNat = c.toNat + 32 := char_toNat_ofNat (by omega)
    rw [ht, if_pos (by omega), if_neg (by omega)]
    have h2 : c.toNat + 32 - 32 = c.toNat := by omega
    rw [h2, Char.ofNat_toNat]
  · rw [if_neg h1]

theorem toUpper_toUpper (c : Char) : (Char.toUpper c).toUpper = c.toUpper := by
  unfold Char.toUpper
  by_cases h1 : c.toNat ≥ 97 ∧ c.toNat ≤ 122
  · rw [if_pos h1]
    have ht : (Char.ofNat (c.toNat - 32)).toNat = c.toNat - 32 := char_toNat_ofNat (by omega)
    rw [ht, if_neg (by omega)]
  · rw [if_neg h1, if_neg h1]

theorem isLower_eq_decide (c : Char) :
    c.isLower = (decide (97 ≤ c.toNat) && decide (c.toNat ≤ 122)) := rfl

theorem isLower_toUpper (c : Char) : (Char.toUpper c).isLower = false := by
  unfold Char.toUpper
  by_cases h1 : c.toNat ≥ 97 ∧ c.toNat ≤ 122
  · rw [if_pos h1]
    have ht : (Char.ofNat (c.toNat - 32)).toNat = c.toNat - 32 := char_toNat_ofNat (by omega)
    rw [isLower_eq_decide, ht]
    simp only [Bool.and_eq_false_iff, decide_eq_false_iff_not, not_le]
    omega
  · rw [if_neg h1, isLower_eq_decide]
    simp only [Bool.and_eq_false_iff, decide_eq_false_iff_not, not_le]
    omega

theorem isLower_false_of_not_isAlpha {c : Char} (h : c.isAlpha = false) : c.isLower = false := by
  unfold Char.isAlpha at h
  exact (Bool.or_eq_false_iff.mp h).2

/-! ## Upper-casing and the title-case transform -/

theorem toUpperL_append (l m : List Char) :
    toUpperL (l ++ m) = toUpperL l ++ toUpperL m :=
  List.map_append _ l m

theorem toUpperL_drop (l : List Char) (n : Nat) :
    toUpperL (l.drop n) = (toUpperL l).drop n := by
  simp [toUpperL, List.map_drop]

theorem toUpperL_take (l : List Char) (n : Nat) :
    toUpperL (l.take n) = (toUpperL l).take n := by
  simp [toUpperL, List.map_take]

theorem toUpperL_length (l : List Char) : (toUpperL l).length = l.length :=
  List.length_map l _

theorem toUpperL_pyTitleGo : ∀ (b : Bool) (g : List Char),
    toUpperL (pyTitleGo b g) = toUpperL g := by
  intro b g
  induction g generalizing b with
  | nil => rfl
  | cons c cs ih =>
    unfold pyTitleGo
    have h1 : List.map Char.toUpper (pyTitleGo true cs) = List.map Char.toUpper cs := ih true
    have h0 : List.map Char.toUpper (pyTitleGo false cs) = List.map Char.toUpper cs := ih false
    by_cases hc : c.isAlpha = true
    · rw [if_pos hc]
      cases b
      · simp only [Bool.false_eq_true, if_false, toUpperL, List.map_cons,
          toUpper_toUpper, h1]
      · simp only [if_true, toUpperL, List.map_cons, toUpper_toLower, h1]
    · rw [if_neg hc]
      simp only [toUpperL, List.map_cons, h0]

theorem toUpperL_pyTitle (g : List Char) : toUpperL (pyTitle g) = toUpperL g :=
  toUpperL_pyTitleGo false g

theorem pyTitleGo_length : ∀ (b : Bool) (g : List Char),
    (pyTitleGo b g).length = g.length := by
  intro b g
  induction g generalizing b with
  | nil => rfl
  | cons c cs ih =>
    unfold pyTitleGo
    by_cases hc : c.isAlpha = true
    · rw [if_pos hc]
      cases b <;> simp only [List.length_cons, ih true]
    · rw [if_neg hc]
      simp only [List.length_cons, ih false]

theorem pyTitle_length (g : List Char) : (pyTitle g).length = g.length :=
  pyTitleGo_length false g

theorem pyTitle_head_not_lower {c : Char} {cs : List Char} :
    ∃ d ds, pyTitle (c :: cs) = d :: ds ∧ d.isLower = false := by
  unfold pyTitle pyTitleGo
  by_cases hc : c.isAlpha = true
  · rw [if_pos hc]
    exact ⟨c.toUpper, pyTitleGo true cs, by simp, isLower_toUpper c⟩
  · rw [if_neg hc]
    exact ⟨c, pyTitleGo false cs, rfl, isLower_false_of_not_isAlpha (by simpa using hc)⟩

/-! ## Occurrences of the column name -/

theorem ciPrefixOf_eq_isPrefixOf : ∀ (n l : List Char),
    ciPrefixOf n l = (toUpperL n).isPrefixOf (toUpperL l) := by
  intro n
  induction n with
  | nil => intro l; cases l <;> rfl
  | cons a as ih =>
    intro l
    cases l with
    | nil => rfl
    | cons b bs =>
      unfold ciPrefixOf
      have h1 : ciPrefixOf as bs =
          (List.map Char.toUpper as).isPrefixOf (List.map Char.toUpper bs) := ih bs
      simp only [toUpperL, List.map_cons, List.isPrefixOf_cons₂, ← h1]
      by_cases h : a.toUpper = b.toUpper
      · simp [h]
      · simp [h]

theorem ciPrefixOf_length_le {n l : List Char} (h : ciPrefixOf n l = true) :
    n.length ≤ l.length := by
  induction n generalizing l with
  | nil => simp
  | cons a as ih =>
    cases l with
    | nil => cases h
    | cons b bs =>
      unfold ciPrefixOf at h
      simp only [Bool.and_eq_true] at h
      simpa using ih h.2

theorem toUpperL_COLNAME : toUpperL COLNAME = COLNAME := by decide

theorem occ_iff_take (l : List Char) (q : Nat) :
    Occ l q ↔ ((toUpperL l).drop q).take 26 = COLNAME := by
  unfold Occ
  rw [ciPrefixOf_eq_isPrefixOf, toUpperL_COLNAME, toUpperL_drop]
  rw [List.isPrefixOf_iff_prefix]
  constructor
  · intro h
    have := List.prefix_iff_eq_take.mp h
    exact this.symm
  · intro h
    apply List.prefix_iff_eq_take.mpr
    exact h.symm

theorem occ_congr {l m : List Char} {q r : Nat}
    (h : ((toUpperL l).drop q).take 26 = ((toUpperL m).drop r).take 26) :
    Occ l q ↔ Occ m r := by
  rw [occ_iff_take, occ_iff_take, h]

theorem colname_no_self_overlap :
    ∀ t, t < 26 → 0 < t → COLNAME.drop t ≠ COLNAME.take (26 - t) := by decide

theorem quote_not_mem_colname : '\'' ∉ COLNAME := by decide

theorem colname_length : COLNAME.length = 26 := by decide

/-! ## Scanner behaviour of the three substitutions -/

theorem isPrefixOf_imp_ci : ∀ (n l : List Char), n.isPrefixOf l = true → ciPrefixOf n l = true := by
  intro n
  induction n with
  | nil => intro l _; cases l <;> rfl
  | cons a as ih =>
    intro l h
    cases l with
    | nil => cases h
    | cons b bs =>
      rw [List.isPrefixOf_cons₂, Bool.and_eq_true, beq_iff_eq] at h
      unfold ciPrefixOf
      rw [h.1, ih bs h.2]
      simp

theorem matchFunAt_some_ci {key l : List Char} {x : List Char × Nat}
    (h : matchFunAt key l = some x) : ciPrefixOf COLNAME l = true := by
  by_cases hc : ciPrefixOf COLNAME l = true
  · exact hc
  · unfold matchFunAt at h
    rw [if_neg hc] at h
    cases h

theorem matchDirectAt_some_ci {l : List Char} {x : List Char × Nat}
    (h : matchDirectAt l = some x) : ciPrefixOf COLNAME l = true := by
  by_cases hc : COLNAME.isPrefixOf l = true
  · exact isPrefixOf_imp_ci _ _ hc
  · unfold matchDirectAt at h
    rw [if_neg hc] at h
    cases h

theorem ciPrefixOf_colname_nil : ciPrefixOf COLNAME [] = false := by decide

theorem subFunF_id {key : List Char} :
    ∀ (f : Nat) (l : List Char), (∀ q, matchFunAt key (l.drop q) = none) →
      subFunF key f l = l := by
  intro f
  induction f with
  | zero => intro l _; rfl
  | succ f ih =>
    intro l h
    cases l with
    | nil => rfl
    | cons c cs =>
      unfold subFunF
      have h0 := h 0
      rw [List.drop_zero] at h0
      rw [h0, ih cs (fun q => by simpa using h (q + 1))]

theorem subDirectF_id :
    ∀ (f : Nat) (l : List Char),
      (∀ q g k, matchDirectAt (l.drop q) = some (g, k) → pyIsLower g = false) →
      subDirectF f l = l := by
  intro f
  induction f with
  | zero => intro l _; rfl
  | succ f ih =>
    intro l h
    cases l with
    | nil => rfl
    | cons c cs =>
      unfold subDirectF
      cases hm : matchDirectAt (c :: cs) with
      | none =>
        rw [ih cs (fun q g k hq => h (q + 1) g k (by simpa using hq))]
      | some x =>
        obtain ⟨g, k⟩ := x
        have hg : pyIsLower g = false := h 0 g k (by simpa using hm)
        simp only [hg, Bool.false_eq_true, if_false]
        rw [ih ((c :: cs).drop k) (fun q g2 k2 hq => by
          rw [List.drop_drop] at hq
          exact h (k + q) g2 k2 hq)]
        exact List.take_append_drop k (c :: cs)

theorem subFunF_single {key : List Char} :
    ∀ (p : Nat) (f : Nat) (l g : List Char) (k : Nat),
      p + 1 ≤ f →
      (∀ q, q ≠ p → ciPrefixOf COLNAME (l.drop q) = false) →
      matchFunAt key (l.drop p) = some (g, k) →
      1 ≤ k →
      subFunF key f l = l.take p ++ colBlock (pyTitle g) ++ l.drop (p + k) := by
  intro p
  induction p with
  | zero =>
    intro f l g k hf hno hm hk
    match f, hf with
    | f + 1, _ =>
      cases l with
      | nil =>
        rw [List.drop_nil] at hm
        exact absurd (matchFunAt_some_ci hm) (by rw [ciPrefixOf_colname_nil]; simp)
      | cons c cs =>
        rw [List.drop_zero] at hm
        unfold subFunF
        rw [List.take_zero, List.nil_append, Nat.zero_add, hm]
        show colBlock (pyTitle g) ++ subFunF key f ((c :: cs).drop k) =
          colBlock (pyTitle g) ++ (c :: cs).drop k
        congr 1
        exact subFunF_id f ((c :: cs).drop k) (fun q => by
          cases hmm : matchFunAt key (((c :: cs).drop k).drop q) with
          | none => rfl
          | some x =>
            have hci := matchFunAt_some_ci hmm
            rw [List.drop_drop] at hci
            rw [hno (k + q) (by omega)] at hci
            cases hci)
  | succ p ihp =>
    intro f l g k hf hno hm hk
    match f, hf with
    | f + 1, _ =>
      cases l with
      | nil =>
        rw [List.drop_nil] at hm
        exact absurd (matchFunAt_some_ci hm) (by rw [ciPrefixOf_colname_nil]; simp)
      | cons c cs =>
        unfold subFunF
        have h0 : matchFunAt key (c :: cs) = none := by
          cases hmm : matchFunAt key (c :: cs) with
          | none => rfl
          | some x =>
            have hci := matchFunAt_some_ci hmm
            have h00 := hno 0 (by omega)
            rw [List.drop_zero] at h00
            rw [h00] at hci
            cases hci
        rw [h0]
        rw [ihp f cs g k (by omega)
          (fun q hq => by simpa using hno (q + 1) (by omega))
          (by simpa using hm) hk]
        have hpk : p + 1 + k = (p + k) + 1 := by omega
        rw [hpk, List.drop_succ_cons, List.take_succ_cons]
        simp

theorem subDirectF_single :
    ∀ (p : Nat) (f : Nat) (l g : List Char) (k : Nat),
      p + 1 ≤ f →
      (∀ q, q ≠ p → ciPrefixOf COLNAME (l.drop q) = false) →
      matchDirectAt (l.drop p) = some (g, k) →
      pyIsLower g = true →
      1 ≤ k →
      subDirectF f l = l.take p ++ colBlock (pyTitle g) ++ l.drop (p + k) := by
  intro p
  induction p with
  | zero =>
    intro f l g k hf hno hm hlow hk
    match f, hf with
    | f + 1, _ =>
      cases l with
      | nil =>
        rw [List.drop_nil] at hm
        exact absurd (matchDirectAt_some_ci hm) (by rw [ciPrefixOf_colname_nil]; simp)
      | cons c cs =>
        rw [List.drop_zero] at hm
        unfold subDirectF
        rw [List.take_zero, List.nil_append, Nat.zero_add, hm]
        show (if pyIsLower g = true then colBlock (pyTitle g) else (c :: cs).take k) ++
            subDirectF f ((c :: cs).drop k) = colBlock (pyTitle g) ++ (c :: cs).drop k
        rw [hlow]
        simp only [if_true]
        congr 1
        exact subDirectF_id f ((c :: cs).drop k) (fun q g2 k2 hq => by
          rw [List.drop_drop] at hq
          have hci := matchDirectAt_some_ci hq
          rw [hno (k + q) (by omega)] at hci
          cases hci)
  | succ p ihp =>
    intro f l g k hf hno hm hlow hk
    match f, hf with
    | f + 1, _ =>
      cases l with
      | nil =>
        rw [List.drop_nil] at hm
        exact absurd (matchDirectAt_some_ci hm) (by rw [ciPrefixOf_colname_nil]; simp)
      | cons c cs =>
        unfold subDirectF
        have h0 : matchDirectAt (c :: cs) = none := by
          cases hmm : matchDirectAt (c :: cs) with
          | none => rfl
          | some x =>
            have hci := matchDirectAt_some_ci hmm
            have h00 := hno 0 (by omega)
            rw [List.drop_zero] at h00
            rw [h00] at hci
            cases hci
        rw [h0]
        rw [ihp f cs g k (by omega)
          (fun q hq => by simpa using hno (q + 1) (by omega))
          (by simpa using hm) hlow hk]
        have hpk : p + 1 + k = (p + k) + 1 := by omega
        rw [hpk, List.drop_succ_cons, List.take_succ_cons]
        simp


/-! ## Inversion of the normaliser matchers -/

theorem drop_add (l : List Char) (n m : Nat) : (l.drop n).drop m = l.drop (n + m) := by
  rw [List.drop_drop, Nat.add_comm]

theorem drop_cons_succ {l r : List Char} {n : Nat} {c : Char}
    (h : l.drop n = c :: r) : l.drop (n + 1) = r := by
  rw [← drop_add, h, List.drop_one, List.tail_cons]

theorem take_of_takeWhile_eq {p : Char → Bool} {r g : List Char}
    (h : r.takeWhile p = g) : r.take g.length = g := by
  have hpre : g <+: r := h ▸ List.takeWhile_prefix p
  exact (List.prefix_iff_eq_take.mp hpre).symm

theorem matchFunAt_inv {key l g : List Char} {k : Nat}
    (h : matchFunAt key l = some (g, k)) :
    ∃ c0, 1 ≤ c0 ∧ c0 + g.length + 1 ≤ k ∧ (l.drop c0).take g.length = g ∧
      g ≠ [] ∧ '\'' ∉ g := by
  by_cases hci : ciPrefixOf COLNAME l = true
  · unfold matchFunAt at h
    rw [if_pos hci] at h
    simp only [] at h
    split at h
    · rename_i r3 e1
      split at h
      · rename_i hkey
        split at h
        · rename_i r7 e3
          split at h
          · rename_i r9 e4
            split at h
            · exact absurd h (by simp)
            · rename_i hne
              split at h
              · rename_i r11 e6
                split at h
                · rename_i rest e7
                  simp only [Option.some.injEq, Prod.mk.injEq] at h
                  obtain ⟨hg, hk⟩ := h
                  rw [drop_add] at e1
                  have d1 := drop_cons_succ e1
                  rw [← d1] at e3 hk
                  rw [drop_add, drop_add, drop_add] at e3
                  have d2 := drop_cons_succ e3
                  rw [← d2] at e4 hk
                  rw [drop_add] at e4
                  have d3 := drop_cons_succ e4
                  rw [hg] at hk hne
                  refine ⟨_, ?_, ?_, by rw [d3]; exact take_of_takeWhile_eq hg, ?_, ?_⟩
                  · omega
                  · omega
                  · intro hnil
                    rw [hnil] at hne
                    exact hne rfl
                  · intro hq
                    rw [← hg] at hq
                    have := List.mem_takeWhile_imp hq
                    simp at this
                · exact absurd h (by simp)
              · exact absurd h (by simp)
          · exact absurd h (by simp)
        · exact absurd h (by simp)
      · exact absurd h (by simp)
    · exact absurd h (by simp)
  · unfold matchFunAt at h
    rw [if_neg hci] at h
    cases h


theorem matchDirectAt_inv {l g : List Char} {k : Nat}
    (h : matchDirectAt l = some (g, k)) :
    ∃ c0, 1 ≤ c0 ∧ c0 + g.length + 1 ≤ k ∧ (l.drop c0).take g.length = g ∧
      (∃ d ds, g = d :: ds ∧ d.isLower = true) ∧ '\'' ∉ g := by
  by_cases hci : COLNAME.isPrefixOf l = true
  · unfold matchDirectAt at h
    rw [if_pos hci] at h
    simp only [] at h
    split at h
    · rename_i r3 e1
      split at h
      · rename_i r5 e2
        split at h
        · rename_i c rest5
          split at h
          · rename_i hlow
            split at h
            · rename_i r7 e4
              simp only [Option.some.injEq, Prod.mk.injEq] at h
              obtain ⟨hg, hk⟩ := h
              rw [drop_add] at e1
              have d1 := drop_cons_succ e1
              rw [← d1] at e2 hk
              rw [drop_add] at e2
              have d2 := drop_cons_succ e2
              rw [hg] at hk
              have hcq : (decide (c ≠ '\'')) = true := by
                rcases Decidable.em (c = '\'') with hc | hc
                · rw [hc] at hlow
                  exact absurd hlow (by decide)
                · simp [hc]
              have hghead : g = c :: List.takeWhile (fun x => decide (x ≠ '\'')) rest5 := by
                rw [← hg, List.takeWhile_cons, if_pos hcq]
              refine ⟨_, ?_, ?_, by rw [d2]; exact take_of_takeWhile_eq hg,
                ⟨c, _, hghead, hlow⟩, ?_⟩
              · omega
              · omega
              · intro hq
                rw [← hg] at hq
                have := List.mem_takeWhile_imp hq
                simp at this
            · exact absurd h (by simp)
          · exact absurd h (by simp)
        · exact absurd h (by simp)
      · exact absurd h (by simp)
    · exact absurd h (by simp)
  · unfold matchDirectAt at h
    rw [if_neg hci] at h
    cases h


theorem matchFunAt_upper_colBlock (t rest : List Char) :
    matchFunAt "UPPER".data (colBlock t ++ rest) = none := rfl

theorem matchFunAt_lower_colBlock (t rest : List Char) :
    matchFunAt "LOWER".data (colBlock t ++ rest) = none := rfl

theorem matchDirectAt_colBlock (c : Char) (t rest : List Char) (hc : c.isLower = false) :
    matchDirectAt (colBlock (c :: t) ++ rest) = none := by
  have he : matchDirectAt (colBlock (c :: t) ++ rest) =
      if c.isLower = true then
        (let r5 : List Char := c :: ((t ++ ['\'']) ++ rest)
         let g := r5.takeWhile (fun x => decide (x ≠ '\''))
         match r5.drop g.length with
         | '\'' :: _ => some (g, COLNAME.length + 1 + 1 + 1 + 1 + g.length + 1)
         | _ => none)
      else none := rfl
  rw [he, if_neg]
  simp [hc]


/-! ## Window helpers -/

theorem take26_within {A B : List Char} {q : Nat} (h : q + 26 ≤ A.length) :
    ((A ++ B).drop q).take 26 = (A.drop q).take 26 := by
  rw [List.drop_append_eq_append_drop]
  have h1 : q - A.length = 0 := by omega
  rw [h1, List.drop_zero, List.take_append_eq_append_take, List.length_drop]
  have h2 : 26 - (A.length - q) = 0 := by omega
  rw [h2, List.take_zero, List.append_nil]

theorem drop_past {A : List Char} (B : List Char) {q : Nat} (h : A.length ≤ q) :
    (A ++ B).drop q = B.drop (q - A.length) := by
  rw [List.drop_append_eq_append_drop, List.drop_eq_nil_of_le h, List.nil_append]

theorem take_left_of_le {A B : List Char} {n : Nat} (h : n ≤ A.length) :
    (A ++ B).take n = A.take n := by
  rw [List.take_append_eq_append_take]
  have h1 : n - A.length = 0 := by omega
  rw [h1, List.take_zero, List.append_nil]

theorem drop_within {A : List Char} (B : List Char) {q : Nat} (h : q ≤ A.length) :
    (A ++ B).drop q = A.drop q ++ B := by
  rw [List.drop_append_eq_append_drop]
  have h1 : q - A.length = 0 := by omega
  rw [h1, List.drop_zero]

theorem take_window_shift (u : List Char) (q j n : Nat) :
    ((u.drop q).take n).drop j = (u.drop (q + j)).take (n - j) := by
  rw [List.drop_take, drop_add]

theorem occ_lt_length {l : List Char} {p : Nat} (h : Occ l p) : p < l.length := by
  have h1 := ciPrefixOf_length_le h
  rw [colname_length, List.length_drop] at h1
  omega

/-! ## The block output has no occurrence away from the block -/

theorem occ_block_unique {l g : List Char} {p c0 k : Nat}
    (hp : p < l.length)
    (huniq : ∀ q, Occ l q → q = p)
    (hc0 : 1 ≤ c0) (hck : c0 + g.length + 1 ≤ k)
    (hg : (l.drop (p + c0)).take g.length = g) :
    ∀ q, q ≠ p → ¬ Occ (l.take p ++ colBlock (pyTitle g) ++ l.drop (p + k)) q := by
  intro q hqp hocc
  have hsp : toUpperL " = '".data = [' ', '=', ' ', '\''] := by decide
  have hq1 : toUpperL ['\''] = ['\''] := by decide
  have hup1 : Char.toUpper ' ' = ' ' := by decide
  have hup2 : Char.toUpper '=' = '=' := by decide
  have hup3 : Char.toUpper '\'' = '\'' := by decide
  have toUCons : ∀ (c : Char) (z : List Char), toUpperL (c :: z) = c.toUpper :: toUpperL z :=
    fun c z => rfl
  have hU : toUpperL (l.take p ++ colBlock (pyTitle g) ++ l.drop (p + k)) =
      toUpperL (l.take p) ++ (COLNAME ++ ([' ', '=', ' ', '\''] ++
        (toUpperL g ++ ('\'' :: toUpperL (l.drop (p + k)))))) := by
    simp only [toUpperL_append, colBlock, toUpperL_COLNAME, toUpperL_pyTitle, hsp, hq1,
      toUCons, hup1, hup2, hup3,
      List.append_assoc, List.singleton_append, List.cons_append, List.nil_append]
  have hXlen : (toUpperL (l.take p)).length = p := by
    rw [toUpperL_length, List.length_take]
    omega
  have hTlen : (toUpperL g).length = g.length := toUpperL_length g
  have hsp4 : ([' ', '=', ' ', '\''] : List Char).length = 4 := rfl
  have hw : ((toUpperL (l.take p ++ colBlock (pyTitle g) ++ l.drop (p + k))).drop q).take 26
      = COLNAME := (occ_iff_take _ q).mp hocc
  rw [hU] at hw
  by_cases h1 : q + 26 ≤ p
  · -- zone 1: window inside the unchanged prefix
    rw [take26_within (by rw [hXlen]; omega)] at hw
    have hsplit : toUpperL l = toUpperL (l.take p) ++ toUpperL (l.drop p) := by
      rw [← toUpperL_append, List.take_append_drop]
    have hl : ((toUpperL l).drop q).take 26 = COLNAME := by
      rw [hsplit, take26_within (by rw [hXlen]; omega)]
      exact hw
    exact absurd (huniq q ((occ_iff_take l q).mpr hl)) (by omega)
  · by_cases h2 : q < p
    · -- zone 2: window straddles from the prefix into COLNAME
      have ht0 := congrArg (List.drop (p - q)) hw
      rw [take_window_shift, show q + (p - q) = p by omega,
        drop_past _ (by rw [hXlen]), hXlen, Nat.sub_self, List.drop_zero,
        take_left_of_le (by rw [colname_length]; omega)] at ht0
      exact colname_no_self_overlap (p - q) (by omega) (by omega) ht0.symm
    · have hpq : p < q := by omega
      by_cases h3 : q ≤ p + 25
      · -- zone 4a: window starts inside COLNAME
        rw [drop_past _ (by rw [hXlen]; omega), hXlen,
          drop_within _ (by rw [colname_length]; omega)] at hw
        have h' := congrArg (List.take (26 - (q - p))) hw
        rw [List.take_take, show (26 - (q - p)) ⊓ 26 = 26 - (q - p) by omega,
          take_left_of_le (by rw [List.length_drop, colname_length]),
          List.take_of_length_le (by rw [List.length_drop, colname_length])] at h'
        exact colname_no_self_overlap (q - p) (by omega) (by omega) h'
      · by_cases h4 : q ≤ p + 29
        · -- zone 4b: window contains the opening quote
          have hd3 : ([' ', '=', ' ', '\''] : List Char).drop 3 = ['\''] := rfl
          have hj := congrArg (List.drop (p + 29 - q)) hw
          rw [take_window_shift, show q + (p + 29 - q) = p + 29 by omega,
            drop_past _ (by rw [hXlen]; omega), hXlen,
            drop_past _ (by rw [colname_length]; omega), colname_length,
            show p + 29 - p - 26 = 3 by omega,
            drop_within _ (by rw [hsp4]; omega), hd3, List.singleton_append] at hj
          obtain ⟨m, hm⟩ : ∃ m, 26 - (p + 29 - q) = m + 1 := ⟨25 - (p + 29 - q), by omega⟩
          rw [hm, List.take_succ_cons] at hj
          have hmem : '\'' ∈ COLNAME.drop (p + 29 - q) := by
            rw [← hj]
            exact List.mem_cons_self _ _
          exact quote_not_mem_colname (List.drop_subset _ _ hmem)
        · by_cases h5 : q ≤ p + 30 + g.length ∧ p + 30 + g.length < q + 26
          · -- zone: window contains the closing quote
            have hj := congrArg (List.drop (p + 30 + g.length - q)) hw
            rw [take_window_shift,
              show q + (p + 30 + g.length - q) = p + 30 + g.length by omega,
              drop_past _ (by rw [hXlen]; omega), hXlen,
              drop_past _ (by rw [colname_length]; omega), colname_length,
              show p + 30 + g.length - p - 26 = 4 + g.length by omega,
              drop_past _ (by rw [hsp4]; omega), hsp4,
              show 4 + g.length - 4 = g.length by omega,
              drop_past _ (by rw [hTlen]), hTlen, Nat.sub_self, List.drop_zero] at hj
            obtain ⟨m, hm⟩ : ∃ m, 26 - (p + 30 + g.length - q) = m + 1 :=
              ⟨25 - (p + 30 + g.length - q), by omega⟩
            rw [hm, List.take_succ_cons] at hj
            have hmem : '\'' ∈ COLNAME.drop (p + 30 + g.length - q) := by
              rw [← hj]
              exact List.mem_cons_self _ _
            exact quote_not_mem_colname (List.drop_subset _ _ hmem)
          · by_cases h6 : q + 26 ≤ p + 30 + g.length
            · -- zone 4T: window inside the replaced group
              have hq30 : p + 30 ≤ q := by omega
              have hg26 : 26 ≤ g.length := by omega
              have hmin := congrArg List.length hg
              rw [List.length_take, List.length_drop] at hmin
              have hlen2 : p + c0 + g.length ≤ l.length := by omega
              have hl2 : l.drop (p + c0) = g ++ l.drop (p + c0 + g.length) := by
                calc l.drop (p + c0)
                    = (l.drop (p + c0)).take g.length ++ (l.drop (p + c0)).drop g.length :=
                      (List.take_append_drop _ _).symm
                  _ = g ++ l.drop (p + c0 + g.length) := by rw [hg, drop_add]
              have hsplitc : toUpperL l = toUpperL (l.take (p + c0)) ++
                  (toUpperL g ++ toUpperL (l.drop (p + c0 + g.length))) := by
                conv_lhs => rw [← List.take_append_drop (p + c0) l, hl2]
                rw [toUpperL_append, toUpperL_append]
              have hA2len : (toUpperL (l.take (p + c0))).length = p + c0 := by
                rw [toUpperL_length, List.length_take]
                omega
              rw [drop_past _ (by rw [hXlen]; omega), hXlen,
                drop_past _ (by rw [colname_length]; omega), colname_length,
                drop_past _ (by rw [hsp4]; omega), hsp4,
                drop_within _ (by rw [hTlen]; omega),
                take_left_of_le (by rw [List.length_drop, hTlen]; omega)] at hw
              have hl26 : ((toUpperL l).drop (p + c0 + (q - p - 26 - 4))).take 26 = COLNAME := by
                rw [hsplitc, drop_past _ (by rw [hA2len]; omega), hA2len,
                  show p + c0 + (q - p - 26 - 4) - (p + c0) = q - p - 26 - 4 by omega,
                  drop_within _ (by rw [hTlen]; omega),
                  take_left_of_le (by rw [List.length_drop, hTlen]; omega)]
                exact hw
              have := huniq _ ((occ_iff_take l _).mpr hl26)
              omega
            · -- zone 5: window inside the unchanged suffix
              have hq31 : p + 31 + g.length ≤ q := by omega
              obtain ⟨m, hm⟩ : ∃ m, q - p - 26 - 4 - g.length = m + 1 :=
                ⟨q - p - 31 - g.length, by omega⟩
              rw [drop_past _ (by rw [hXlen]; omega), hXlen,
                drop_past _ (by rw [colname_length]; omega), colname_length,
                drop_past _ (by rw [hsp4]; omega), hsp4,
                drop_past _ (by rw [hTlen]; omega), hTlen, hm,
                List.drop_succ_cons] at hw
              have hY : (toUpperL (l.drop (p + k))).drop m = (toUpperL l).drop (p + k + m) := by
                rw [toUpperL_drop, drop_add]
              rw [hY] at hw
              have := huniq _ ((occ_iff_take l _).mpr hw)
              omega


/-! ## Stage F: assembly -/

theorem matchFunAt_none_of_not_ci {key l : List Char}
    (h : ciPrefixOf COLNAME l = false) : matchFunAt key l = none := by
  unfold matchFunAt
  rw [if_neg (by simp [h])]

theorem matchDirectAt_none_of_not_ci {l : List Char}
    (h : ciPrefixOf COLNAME l = false) : matchDirectAt l = none := by
  have hp : COLNAME.isPrefixOf l = false := by
    cases hq : COLNAME.isPrefixOf l
    · rfl
    · rw [isPrefixOf_imp_ci _ _ hq] at h
      cases h
  unfold matchDirectAt
  rw [if_neg (by simp [hp])]

theorem not_occ_ci {l : List Char} {q : Nat} (h : ¬ Occ l q) :
    ciPrefixOf COLNAME (l.drop q) = false := by
  cases hc : ciPrefixOf COLNAME (l.drop q)
  · rfl
  · exact absurd hc h

theorem subFun_id_of_none {key m : List Char}
    (h : ∀ q, matchFunAt key (m.drop q) = none) : subFun key m = m :=
  subFunF_id m.length m h

theorem subDirect_id_of_none {m : List Char}
    (h : ∀ q, matchDirectAt (m.drop q) = none) : subDirect m = m :=
  subDirectF_id m.length m (fun q g k hq => by rw [h q] at hq; cases hq)

theorem block_output_stable {l g : List Char} {p c0 k : Nat}
    (hp : p < l.length)
    (huniq : ∀ q, Occ l q → q = p)
    (hc0 : 1 ≤ c0) (hck : c0 + g.length + 1 ≤ k)
    (hgt : (l.drop (p + c0)).take g.length = g)
    (hgne : g ≠ []) :
    (∀ q, matchFunAt "UPPER".data
        ((l.take p ++ colBlock (pyTitle g) ++ l.drop (p + k)).drop q) = none) ∧
    (∀ q, matchFunAt "LOWER".data
        ((l.take p ++ colBlock (pyTitle g) ++ l.drop (p + k)).drop q) = none) ∧
    (∀ q, matchDirectAt
        ((l.take p ++ colBlock (pyTitle g) ++ l.drop (p + k)).drop q) = none) := by
  have hOocc := occ_block_unique hp huniq hc0 hck hgt
  have hlt : (l.take p).length = p := by
    rw [List.length_take]
    omega
  have hdropP : (l.take p ++ colBlock (pyTitle g) ++ l.drop (p + k)).drop p =
      colBlock (pyTitle g) ++ l.drop (p + k) := by
    rw [List.append_assoc, drop_past _ (by rw [hlt]), hlt, Nat.sub_self, List.drop_zero]
  obtain ⟨c, cs, rfl⟩ : ∃ c cs, g = c :: cs := by
    cases g with
    | nil => exact absurd rfl hgne
    | cons c cs => exact ⟨c, cs, rfl⟩
  obtain ⟨d, ds, hds, hdlow⟩ := @pyTitle_head_not_lower c cs
  refine ⟨fun q => ?_, fun q => ?_, fun q => ?_⟩
  · by_cases hq : q = p
    · rw [hq, hdropP]
      exact matchFunAt_upper_colBlock _ _
    · exact matchFunAt_none_of_not_ci (not_occ_ci (hOocc q hq))
  · by_cases hq : q = p
    · rw [hq, hdropP]
      exact matchFunAt_lower_colBlock _ _
    · exact matchFunAt_none_of_not_ci (not_occ_ci (hOocc q hq))
  · by_cases hq : q = p
    · rw [hq, hdropP, hds]
      exact matchDirectAt_colBlock d ds _ hdlow
    · exact matchDirectAt_none_of_not_ci (not_occ_ci (hOocc q hq))

theorem fix_core_idem (l : List Char)
    (H : ∀ q r, Occ l q → Occ l r → q = r) :
    subDirect (subFun "LOWER".data (subFun "UPPER".data
      (subDirect (subFun "LOWER".data (subFun "UPPER".data l))))) =
    subDirect (subFun "LOWER".data (subFun "UPPER".data l)) := by
  by_cases hex : ∃ p, Occ l p
  · obtain ⟨p, hp⟩ := hex
    have huniq : ∀ q, Occ l q → q = p := fun q hq => H q p hq hp
    have hplen : p < l.length := occ_lt_length hp
    have hother : ∀ q, q ≠ p → ciPrefixOf COLNAME (l.drop q) = false :=
      fun q hq => not_occ_ci (fun ho => hq (huniq q ho))
    cases hU : matchFunAt "UPPER".data (l.drop p) with
    | some x =>
      obtain ⟨g, k⟩ := x
      obtain ⟨c0, hc0, hck, hgt, hgne, _⟩ := matchFunAt_inv hU
      rw [drop_add] at hgt
      have ho1 : subFun "UPPER".data l =
          l.take p ++ colBlock (pyTitle g) ++ l.drop (p + k) :=
        subFunF_single p l.length l g k hplen hother hU (by omega)
      obtain ⟨hsU, hsL, hsD⟩ := block_output_stable hplen huniq hc0 hck hgt hgne
      have ho2 := subFun_id_of_none hsL
      have ho3 := subDirect_id_of_none hsD
      rw [ho1, ho2, ho3, subFun_id_of_none hsU, ho2, ho3]
    | none =>
      have hidU : ∀ q, matchFunAt "UPPER".data (l.drop q) = none := fun q => by
        by_cases hq : q = p
        · rw [hq]
          exact hU
        · exact matchFunAt_none_of_not_ci (hother q hq)
      have ho0 := subFun_id_of_none hidU
      cases hL : matchFunAt "LOWER".data (l.drop p) with
      | some x =>
        obtain ⟨g, k⟩ := x
        obtain ⟨c0, hc0, hck, hgt, hgne, _⟩ := matchFunAt_inv hL
        rw [drop_add] at hgt
        have ho1 : subFun "LOWER".data l =
            l.take p ++ colBlock (pyTitle g) ++ l.drop (p + k) :=
          subFunF_single p l.length l g k hplen hother hL (by omega)
        obtain ⟨hsU, hsL, hsD⟩ := block_output_stable hplen huniq hc0 hck hgt hgne
        have ho3 := subDirect_id_of_none hsD
        rw [ho0, ho1, ho3, subFun_id_of_none hsU, subFun_id_of_none hsL, ho3]
      | none =>
        have hidL : ∀ q, matchFunAt "LOWER".data (l.drop q) = none := fun q => by
          by_cases hq : q = p
          · rw [hq]
            exact hL
          · exact matchFunAt_none_of_not_ci (hother q hq)
        have ho0L := subFun_id_of_none hidL
        cases hD : matchDirectAt (l.drop p) with
        | some x =>
          obtain ⟨g, k⟩ := x
          obtain ⟨c0, hc0, hck, hgt, hhead, _⟩ := matchDirectAt_inv hD
          rw [drop_add] at hgt
          obtain ⟨d0, ds0, hg0, hd0low⟩ := hhead
          cases hlow : pyIsLower g with
          | true =>
            have ho1 : subDirect l =
                l.take p ++ colBlock (pyTitle g) ++ l.drop (p + k) :=
              subDirectF_single p l.length l g k hplen hother hD hlow (by omega)
            obtain ⟨hsU, hsL, hsD⟩ := block_output_stable hplen huniq hc0 hck hgt
              (by rw [hg0]; exact List.cons_ne_nil d0 ds0)
            rw [ho0, ho0L, ho1, subFun_id_of_none hsU, subFun_id_of_none hsL,
              subDirect_id_of_none hsD]
          | false =>
            have ho1 : subDirect l = l :=
              subDirectF_id l.length l (fun q g2 k2 hq => by
                by_cases hqp : q = p
                · rw [hqp, hD] at hq
                  have h2 := Option.some.inj hq
                  have hg2 : g = g2 := congrArg Prod.fst h2
                  rw [← hg2]
                  exact hlow
                · rw [matchDirectAt_none_of_not_ci (hother q hqp)] at hq
                  cases hq)
            rw [ho0, ho0L, ho1, ho0, ho0L, ho1]
        | none =>
          have hidD : ∀ q, matchDirectAt (l.drop q) = none := fun q => by
            by_cases hq : q = p
            · rw [hq]
              exact hD
            · exact matchDirectAt_none_of_not_ci (hother q hq)
          have ho1 := subDirect_id_of_none hidD
          rw [ho0, ho0L, ho1, ho0, ho0L, ho1]
  · have hno : ∀ q, ¬ Occ l q := fun q hq => hex ⟨q, hq⟩
    have hidU : ∀ q, matchFunAt "UPPER".data (l.drop q) = none :=
      fun q => matchFunAt_none_of_not_ci (not_occ_ci (hno q))
    have hidL : ∀ q, matchFunAt "LOWER".data (l.drop q) = none :=
      fun q => matchFunAt_none_of_not_ci (not_occ_ci (hno q))
    have hidD : ∀ q, matchDirectAt (l.drop q) = none :=
      fun q => matchDirectAt_none_of_not_ci (not_occ_ci (hno q))
    rw [subFun_id_of_none hidU, subFun_id_of_none hidL, subDirect_id_of_none hidD,
      subFun_id_of_none hidU, subFun_id_of_none hidL, subDirect_id_of_none hidD]


/-- C6 counterexample: the normaliser is not idempotent. -/
theorem claim_C6_counterexample :
    fix_case_sensitivity_issues (fix_case_sensitivity_issues sql_C6) ≠
      fix_case_sensitivity_issues sql_C6 := by decide

/-- C6 (amended): on queries in which the city column name occurs at most once
(case-insensitively), the normaliser is idempotent. -/
theorem claim_C6_amended (s : String)
    (h : ((Finset.range s.data.length).filter
        (fun q => ciPrefixOf COLNAME (s.data.drop q) = true)).card ≤ 1) :
    fix_case_sensitivity_issues (fix_case_sensitivity_issues s) =
      fix_case_sensitivity_issues s := by
  have H : ∀ q r, Occ s.data q → Occ s.data r → q = r := by
    intro q r hq hr
    have hqlen := occ_lt_length hq
    have hrlen := occ_lt_length hr
    have hqmem : q ∈ (Finset.range s.data.length).filter
        (fun q => ciPrefixOf COLNAME (s.data.drop q) = true) :=
      Finset.mem_filter.mpr ⟨Finset.mem_range.mpr hqlen, hq⟩
    have hrmem : r ∈ (Finset.range s.data.length).filter
        (fun q => ciPrefixOf COLNAME (s.data.drop q) = true) :=
      Finset.mem_filter.mpr ⟨Finset.mem_range.mpr hrlen, hr⟩
    exact Finset.card_le_one.mp h q hqmem r hrmem
  by_cases hcond : (decide (s = "") || decide (s = "SQL query not found in response")) = true
  · have h1 : fix_case_sensitivity_issues s = s := by
      unfold fix_case_sensitivity_issues
      rw [if_pos hcond]
    rw [h1, h1]
  · have h1 : fix_case_sensitivity_issues s =
        (subDirect (subFun "LOWER".data (subFun "UPPER".data s.data))).asString := by
      unfold fix_case_sensitivity_issues
      rw [if_neg hcond]
    rw [h1]
    by_cases hcond2 : (decide ((subDirect (subFun "LOWER".data
          (subFun "UPPER".data s.data))).asString = "") ||
        decide ((subDirect (subFun "LOWER".data (subFun "UPPER".data s.data))).asString =
          "SQL query not found in response")) = true
    · unfold fix_case_sensitivity_issues
      rw [if_pos hcond2]
    · unfold fix_case_sensitivity_issues
      rw [if_neg hcond2]
      exact congrArg List.asString (fix_core_idem s.data H)

theorem claim_C6_amended_witness :
    (((Finset.range ("SELECT * FROM t WHERE CIDADE_RESIDENCIA_PACIENTE = UPPER('porto alegre')").data.length).filter
        (fun q => ciPrefixOf COLNAME
          (("SELECT * FROM t WHERE CIDADE_RESIDENCIA_PACIENTE = UPPER('porto alegre')").data.drop q) = true)).card ≤ 1) ∧
    fix_case_sensitivity_issues (fix_case_sensitivity_issues
      "SELECT * FROM t WHERE CIDADE_RESIDENCIA_PACIENTE = UPPER('porto alegre')") =
      fix_case_sensitivity_issues
        "SELECT * FROM t WHERE CIDADE_RESIDENCIA_PACIENTE = UPPER('porto alegre')" :=
  ⟨by decide, claim_C6_amended _ (by decide)⟩


end Txt2Sql
